import Mathlib

/-!
Verification of the channel-listing mutations of
`saleor/graphql/product/mutations/channels.py`.

The two mutation classes (`ProductChannelListingUpdate` and
`ProductVaraintChannelListingUpdate`) are embedded shallowly: the
per-product table of `ProductChannelListing` rows and the per-variant
table of `ProductVariantChannelListing` rows are lists of rows keyed by
channel primary key, the identifier-resolution collaborator is a
function from opaque identifier strings to optional channels, and each
classmethod of the source becomes a Lean function of the same name.
-/

namespace Channels

/-- The error codes of `ProductErrorCode` used by this module. -/
inductive ErrorCode where
  | DUPLICATED_INPUT_ITEM
  | NOT_FOUND
  | PRODUCT_WITHOUT_CATEGORY
  | PRODUCT_NOT_ASSIGNED_TO_CHANNEL
  | INVALID
deriving DecidableEq, Repr

/-- One `ValidationError` appended to the `errors` defaultdict: the field
name it is filed under, its machine-readable code, and the
`params={"channels": [...]}` list of offending channel identifiers. -/
structure ValidationErr where
  field : String
  code : ErrorCode
  channels : List String
deriving DecidableEq, Repr

/-- A `Channel` model instance: primary key and currency code. -/
structure ChannelModel where
  pk : Nat
  currency_code : String
deriving DecidableEq, Repr

/-- A `ProductChannelListing` row for one fixed product: channel key,
`is_published`, and nullable `publication_date` (dates as numbers). -/
structure PCLRow where
  channel_id : Nat
  is_published : Bool
  publication_date : Option Nat
deriving DecidableEq, Repr

/-- A `ProductVariantChannelListing` row for one fixed variant:
channel key, nullable `price_amount`, and `currency`. -/
structure VCLRow where
  channel_id : Nat
  price_amount : Option Int
  currency : String
deriving DecidableEq, Repr

/-- A `Product` model instance, reduced to the field this module reads:
its optional category reference. -/
structure ProductModel where
  category : Option Nat
deriving DecidableEq, Repr

/-- The identifier-resolution collaborator: maps an opaque external
identifier to a channel, or to `none` when it does not resolve. -/
def Env : Type := String → Option ChannelModel

/-- `ProductChannelListingAddInput`: channel identifier, required
`is_published`, optional `publication_date`. -/
structure AddChannelInput where
  channel_id : String
  is_published : Bool
  publication_date : Option Nat
deriving DecidableEq, Repr

/-- `ProductChannelListingUpdateInput`: channels to add and channel
identifiers to remove. -/
structure PCLUpdateInput where
  add_channels : List AddChannelInput
  remove_channels : List String
deriving DecidableEq, Repr

/-- `ProductVariantChannelListingAddInput`: channel identifier and
price.  The price is kept optional because `clean_prices` and `save`
both guard on its presence. -/
structure VariantAddInput where
  channel_id : String
  price : Option Int
deriving DecidableEq, Repr

/-- Modelled from the spec: `get_duplicates_ids` of `core.utils` (not
under the covered sources) returns the identifiers that "appear in both
the add-set and the remove-set", each reported once. -/
def get_duplicates_ids (first_list second_list : List String) : List String :=
  (first_list.filter (fun x => second_list.contains x)).dedup

/-- Modelled from the spec: `get_duplicated_values` of `core.utils` (not
under the covered sources) returns the values that occur more than once
in the list, each reported once. -/
def get_duplicated_values (values : List String) : List String :=
  (values.filter (fun v => 1 < values.count v)).dedup

/-- Modelled from the spec: the `get_nodes_or_error` collaborator
resolves every identifier to a channel, "failing per-identifier with
'channel not found' if resolution fails"; the failure is raised as a
`ValidationError` keyed by the given field, carrying all unresolved
identifiers. -/
def get_nodes_or_error (env : Env) (ids : List String) (field : String) :
    Except ValidationErr (List ChannelModel) :=
  let not_found := ids.filter (fun i => (env i).isNone)
  if not_found = [] then .ok (ids.filterMap env)
  else .error ⟨field, .NOT_FOUND, not_found⟩

/-- Modelled from the spec: `resolve_global_ids_to_primary_keys`
resolves each identifier to an internal key, "tolerating identifiers
that do not resolve" by simply dropping them. -/
def resolve_global_ids_to_primary_keys (env : Env) (ids : List String) : List Nat :=
  ids.filterMap (fun i => (env i).map ChannelModel.pk)

/-- `ProductChannelListing.objects.update_or_create(product=product,
channel=..., defaults=...)`: overwrite the row for the channel if one
exists, otherwise create it. -/
def update_or_create (rows : List PCLRow) (c : ChannelModel)
    (pub : Bool) (date : Option Nat) : List PCLRow :=
  if rows.any (fun r => r.channel_id == c.pk) then
    rows.map (fun r => if r.channel_id == c.pk then ⟨c.pk, pub, date⟩ else r)
  else rows ++ [⟨c.pk, pub, date⟩]

/-- The row of the listing table for a given channel key, if any. -/
def lookupRow (rows : List PCLRow) (pk : Nat) : Option PCLRow :=
  rows.find? (fun r => r.channel_id == pk)

/-- `ProductVariantChannelListing.objects.update_or_create(...)`. -/
def vcl_update_or_create (rows : List VCLRow) (c : ChannelModel)
    (price : Option Int) : List VCLRow :=
  if rows.any (fun r => r.channel_id == c.pk) then
    rows.map (fun r => if r.channel_id == c.pk then ⟨c.pk, price, c.currency_code⟩ else r)
  else rows ++ [⟨c.pk, price, c.currency_code⟩]

/-- The row of the variant listing table for a given channel key. -/
def lookupVRow (rows : List VCLRow) (pk : Nat) : Option VCLRow :=
  rows.find? (fun r => r.channel_id == pk)

namespace ProductChannelListingUpdate

/-- The cleaned input produced by `clean_channels`: each add entry
paired with its resolved channel, and the resolved remove keys. -/
structure CleanedChannels where
  add_channels : List (AddChannelInput × ChannelModel)
  remove_channels : List Nat
deriving DecidableEq, Repr

/-- `ProductChannelListingUpdate.validate_duplicated_ids`. -/
def validate_duplicated_ids (add_channels_ids remove_channels_ids : List String)
    (errors : List ValidationErr) : List ValidationErr :=
  let duplicated_ids := get_duplicates_ids add_channels_ids remove_channels_ids
  errors ++
    (if duplicated_ids = [] then []
     else [⟨"input", .DUPLICATED_INPUT_ITEM, duplicated_ids⟩])

/-- `ProductChannelListingUpdate.validate_duplicated_values`. -/
def validate_duplicated_values (channels_ids : List String) (field_name : String)
    (errors : List ValidationErr) : List ValidationErr :=
  let duplicates := get_duplicated_values channels_ids
  errors ++
    (if duplicates = [] then []
     else [⟨field_name, .DUPLICATED_INPUT_ITEM, duplicates⟩])

/-- `ProductChannelListingUpdate.clean_channels`.  Structural duplicate
errors short-circuit resolution (the cleaned input is empty); a
resolution failure on the add path is raised (`Except.error`). -/
def clean_channels (env : Env) (input : PCLUpdateInput)
    (errors : List ValidationErr) :
    Except ValidationErr (List ValidationErr × CleanedChannels) :=
  let add_channels_ids := input.add_channels.map AddChannelInput.channel_id
  let errors := validate_duplicated_ids add_channels_ids input.remove_channels errors
  let errors := validate_duplicated_values add_channels_ids "add_channels" errors
  let errors := validate_duplicated_values input.remove_channels "remove_channels" errors
  if errors = [] then
    match
      (if add_channels_ids = [] then Except.ok []
       else get_nodes_or_error env add_channels_ids "channel_id") with
    | .error e => .error e
    | .ok channels_to_add =>
      let remove_channels_pks := resolve_global_ids_to_primary_keys env input.remove_channels
      .ok (errors, ⟨input.add_channels.zip channels_to_add, remove_channels_pks⟩)
  else .ok (errors, ⟨[], []⟩)

/-- `ProductChannelListingUpdate.validate_product_without_category`. -/
def validate_product_without_category (cleaned_input : CleanedChannels)
    (errors : List ValidationErr) : List ValidationErr :=
  let offending :=
    (cleaned_input.add_channels.filter (fun e => e.1.is_published)).map
      (fun e => e.1.channel_id)
  errors ++
    (if offending = [] then []
     else [⟨"is_published", .PRODUCT_WITHOUT_CATEGORY, offending⟩])

/-- `ProductChannelListingUpdate.add_channels`: upsert each add entry in
order. -/
def add_channels (rows : List PCLRow)
    (adds : List (AddChannelInput × ChannelModel)) : List PCLRow :=
  adds.foldl
    (fun rows e => update_or_create rows e.2 e.1.is_published e.1.publication_date)
    rows

/-- `ProductChannelListingUpdate.remove_channels`: delete every row
whose channel key is in the remove list. -/
def remove_channels (rows : List PCLRow) (remove : List Nat) : List PCLRow :=
  rows.filter (fun r => !(remove.contains r.channel_id))

/-- `ProductChannelListingUpdate.save`: adds first, then removes, in one
transaction. -/
def save (rows : List PCLRow) (cleaned_input : CleanedChannels) : List PCLRow :=
  remove_channels (add_channels rows cleaned_input.add_channels)
    cleaned_input.remove_channels

/-- The outcome of `perform_mutation`: the updated listing table, or the
raised `ValidationError(errors)`. -/
inductive MutationResult where
  | ok (rows : List PCLRow)
  | error (errors : List ValidationErr)
deriving DecidableEq, Repr

/-- `ProductChannelListingUpdate.perform_mutation`, with the listing
table of the target product passed explicitly. -/
def perform_mutation (env : Env) (product : ProductModel)
    (rows : List PCLRow) (input : PCLUpdateInput) : MutationResult :=
  match clean_channels env input [] with
  | .error e => .error [e]
  | .ok (errors, cleaned_input) =>
    let errors :=
      if product.category = none then
        validate_product_without_category cleaned_input errors
      else errors
    if errors = [] then .ok (save rows cleaned_input)
    else .error errors

end ProductChannelListingUpdate

namespace ProductVaraintChannelListingUpdate

/-- `ProductVaraintChannelListingUpdate.clean_channels`: duplicate
channel identifiers produce one error and skip resolution; otherwise
each entry is paired with its resolved channel.  A resolution failure is
raised (`Except.error`). -/
def clean_channels (env : Env) (input : List VariantAddInput)
    (errors : List ValidationErr) :
    Except ValidationErr (List ValidationErr × List (VariantAddInput × ChannelModel)) :=
  let add_channels_ids := input.map VariantAddInput.channel_id
  let duplicates := get_duplicated_values add_channels_ids
  if duplicates = [] then
    match
      (if add_channels_ids = [] then Except.ok []
       else get_nodes_or_error env add_channels_ids "channel_id") with
    | .error e => .error e
    | .ok channels => .ok (errors, input.zip channels)
  else .ok (errors ++ [⟨"channelId", .DUPLICATED_INPUT_ITEM, duplicates⟩], [])

/-- `ProductVaraintChannelListingUpdate.validate_product_assigned_to_channel`,
with the `ProductChannelListing` rows of the variant's parent product
passed explicitly. -/
def validate_product_assigned_to_channel (product_rows : List PCLRow)
    (cleaned_input : List (VariantAddInput × ChannelModel))
    (errors : List ValidationErr) : List ValidationErr :=
  let channels_assigned_to_product := product_rows.map PCLRow.channel_id
  let offending :=
    cleaned_input.filter
      (fun e => !(channels_assigned_to_product.contains e.2.pk))
  errors ++
    (if offending = [] then []
     else [⟨"input", .PRODUCT_NOT_ASSIGNED_TO_CHANNEL,
            offending.map (fun e => e.1.channel_id)⟩])

/-- `ProductVaraintChannelListingUpdate.clean_prices`: collect the
identifiers of entries whose price is present and negative. -/
def clean_prices (cleaned_input : List (VariantAddInput × ChannelModel))
    (errors : List ValidationErr) :
    List ValidationErr × List (VariantAddInput × ChannelModel) :=
  let channels_with_invalid_price :=
    (cleaned_input.filter
      (fun e => match e.1.price with
        | some p => decide (p < 0)
        | none => false)).map (fun e => e.1.channel_id)
  (errors ++
    (if channels_with_invalid_price = [] then []
     else [⟨"price", .INVALID, channels_with_invalid_price⟩]),
   cleaned_input)

/-- `ProductVaraintChannelListingUpdate.save`: upsert every cleaned
entry with the submitted price and the channel's currency code. -/
def save (rows : List VCLRow)
    (cleaned_input : List (VariantAddInput × ChannelModel)) : List VCLRow :=
  cleaned_input.foldl (fun rows e => vcl_update_or_create rows e.2 e.1.price) rows

/-- The outcome of the variant `perform_mutation`. -/
inductive VMutationResult where
  | ok (rows : List VCLRow)
  | error (errors : List ValidationErr)
deriving DecidableEq, Repr

/-- `ProductVaraintChannelListingUpdate.perform_mutation`, with the
parent product's listing rows and the variant's listing rows passed
explicitly. -/
def perform_mutation (env : Env) (product_rows : List PCLRow)
    (rows : List VCLRow) (input : List VariantAddInput) : VMutationResult :=
  match clean_channels env input [] with
  | .error e => .error [e]
  | .ok (errors, cleaned_input) =>
    let errors := validate_product_assigned_to_channel product_rows cleaned_input errors
    let (errors, cleaned_input) := clean_prices cleaned_input errors
    if errors = [] then .ok (save rows cleaned_input)
    else .error errors

end ProductVaraintChannelListingUpdate

/-- Resolution is injective on primary keys over a set of identifiers:
two identifiers of the set resolving to the same primary key are the
same identifier.  (Opaque identifiers encode the primary key, so this
holds of the real resolver.) -/
def pkInjOn (env : Env) (ids : List String) : Prop :=
  ∀ a ∈ ids, ∀ b ∈ ids,
    (env a).map ChannelModel.pk = (env b).map ChannelModel.pk →
    (env a).isSome = true → a = b

instance (env : Env) (ids : List String) : Decidable (pkInjOn env ids) := by
  unfold pkInjOn; infer_instance

/-- All identifiers appearing in a product-listing request. -/
def requestIds (input : PCLUpdateInput) : List String :=
  input.add_channels.map AddChannelInput.channel_id ++ input.remove_channels

/-- Each add entry paired with its resolved channel, unresolvable
entries dropped.  When every entry resolves this is exactly the cleaned
add list built by `clean_channels`. -/
def resolvedAdds (env : Env) (adds : List AddChannelInput) :
    List (AddChannelInput × ChannelModel) :=
  adds.filterMap (fun e => (env e.channel_id).map (fun c => (e, c)))

/-- Whether an identifier resolves to a channel with the given key. -/
def pkMatches (env : Env) (i : String) (pk : Nat) : Bool :=
  match env i with
  | some c => c.pk == pk
  | none => false

/-- Stated from the claim: after reconciliation the listing table is
(previous set minus the removed channels) union (the added channels with
their submitted `is_published` and `publication_date`), an add for an
already-listed channel overwriting that row.  Rendered per channel key. -/
def expectedAfterUpdate (env : Env) (input : PCLUpdateInput)
    (rows : List PCLRow) (pk : Nat) : Option PCLRow :=
  match input.add_channels.find? (fun e => pkMatches env e.channel_id pk) with
  | some e => some ⟨pk, e.is_published, e.publication_date⟩
  | none =>
    if (resolve_global_ids_to_primary_keys env input.remove_channels).contains pk
    then none
    else lookupRow rows pk

/-- The reconcile stage with the two write phases swapped: deletes
first, then upserts. -/
def save_remove_first (rows : List PCLRow)
    (cleaned_input : ProductChannelListingUpdate.CleanedChannels) : List PCLRow :=
  ProductChannelListingUpdate.add_channels
    (ProductChannelListingUpdate.remove_channels rows cleaned_input.remove_channels)
    cleaned_input.add_channels

/-- Each variant entry paired with its resolved channel, unresolvable
entries dropped. -/
def resolvedEntries (env : Env) (input : List VariantAddInput) :
    List (VariantAddInput × ChannelModel) :=
  input.filterMap (fun e => (env e.channel_id).map (fun c => (e, c)))

/-- The identifiers of entries whose channel is not among the parent
product's listed channels, in entry order. -/
def unassignedIds (env : Env) (product_rows : List PCLRow)
    (input : List VariantAddInput) : List String :=
  ((resolvedEntries env input).filter
    (fun e => !((product_rows.map PCLRow.channel_id).contains e.2.pk))).map
      (fun e => e.1.channel_id)

/-- The identifiers of entries whose price is present and negative, in
entry order. -/
def invalidPriceIds (env : Env) (input : List VariantAddInput) : List String :=
  ((resolvedEntries env input).filter
    (fun e => match e.1.price with
      | some p => decide (p < 0)
      | none => false)).map (fun e => e.1.channel_id)

/-- The identifiers of add entries whose publish flag is true, in entry
order. -/
def publishedIds (input : PCLUpdateInput) : List String :=
  (input.add_channels.filter AddChannelInput.is_published).map
    AddChannelInput.channel_id

/-- A concrete resolver: "A" is channel 1 (USD), "B" is channel 2
(EUR), everything else does not resolve. -/
def envAB : Env := fun s =>
  if s = "A" then some ⟨1, "USD"⟩
  else if s = "B" then some ⟨2, "EUR"⟩
  else none

/-- A concrete resolver where only "A" resolves. -/
def envAonly : Env := fun s =>
  if s = "A" then some ⟨1, "USD"⟩ else none

/-- The structural-duplicate errors the clean stage accumulates for a
product-listing request: cross add/remove duplicates, duplicates within
the add list, duplicates within the remove list, in that order. -/
def structuralErrors (input : PCLUpdateInput) : List ValidationErr :=
  (if get_duplicates_ids (input.add_channels.map AddChannelInput.channel_id)
      input.remove_channels = [] then []
   else [⟨"input", .DUPLICATED_INPUT_ITEM,
     get_duplicates_ids (input.add_channels.map AddChannelInput.channel_id)
       input.remove_channels⟩]) ++
  (if get_duplicated_values (input.add_channels.map AddChannelInput.channel_id) = []
   then []
   else [⟨"add_channels", .DUPLICATED_INPUT_ITEM,
     get_duplicated_values (input.add_channels.map AddChannelInput.channel_id)⟩]) ++
  (if get_duplicated_values input.remove_channels = [] then []
   else [⟨"remove_channels", .DUPLICATED_INPUT_ITEM,
     get_duplicated_values input.remove_channels⟩])

theorem get_duplicated_values_eq_nil {l : List String} :
    get_duplicated_values l = [] ↔ l.Nodup := by
  unfold get_duplicated_values
  rw [List.dedup_eq_nil, List.filter_eq_nil_iff, List.nodup_iff_count_le_one]
  constructor
  · intro h a
    by_cases ha : a ∈ l
    · have := h a ha
      simp only [decide_eq_true_eq] at this
      omega
    · have : l.count a = 0 := List.count_eq_zero.mpr ha
      omega
  · intro h a _
    simp only [decide_eq_true_eq]
    exact Nat.not_lt.mpr (h a)

theorem get_duplicates_ids_eq_nil {l₁ l₂ : List String} :
    get_duplicates_ids l₁ l₂ = [] ↔ ∀ x ∈ l₁, x ∉ l₂ := by
  unfold get_duplicates_ids
  rw [List.dedup_eq_nil, List.filter_eq_nil_iff]
  constructor
  · intro h x hx hx₂
    exact h x hx (by simpa [List.contains] using hx₂)
  · intro h x hx hc
    exact h x hx (by simpa [List.contains] using hc)

theorem get_nodes_or_error_ok {env : Env} {ids : List String} {field : String}
    {channels : List ChannelModel}
    (h : get_nodes_or_error env ids field = .ok channels) :
    (∀ i ∈ ids, (env i).isSome = true) ∧ channels = ids.filterMap env := by
  unfold get_nodes_or_error at h
  by_cases hnf : ids.filter (fun i => (env i).isNone) = []
  · rw [if_pos hnf] at h
    refine ⟨?_, by injection h with h; exact h.symm⟩
    intro i hi
    rw [List.filter_eq_nil_iff] at hnf
    have := hnf i hi
    simp only [Bool.not_eq_true, Option.isNone_eq_false_iff] at this
    exact this
  · rw [if_neg hnf] at h
    exact absurd h (by simp)

theorem zip_filterMap_resolved {env : Env} {adds : List AddChannelInput}
    (h : ∀ e ∈ adds, (env e.channel_id).isSome = true) :
    adds.zip ((adds.map AddChannelInput.channel_id).filterMap env) =
      resolvedAdds env adds := by
  induction adds with
  | nil => rfl
  | cons e es ih =>
    obtain ⟨c, hc⟩ := Option.isSome_iff_exists.mp (h e (by simp))
    simp only [resolvedAdds, List.map_cons, List.filterMap_cons, hc,
      Option.map_some', List.zip_cons_cons]
    exact congrArg _ (ih (fun x hx => h x (by simp [hx])))

theorem lookupRow_update_self (rows : List PCLRow) (c : ChannelModel)
    (pub : Bool) (date : Option Nat) :
    lookupRow (update_or_create rows c pub date) c.pk = some ⟨c.pk, pub, date⟩ := by
  unfold update_or_create lookupRow
  by_cases hany : rows.any (fun r => r.channel_id == c.pk)
  · rw [if_pos hany, List.find?_map]
    have hpg : ((fun r : PCLRow => r.channel_id == c.pk) ∘
        (fun r : PCLRow => if r.channel_id == c.pk then ⟨c.pk, pub, date⟩ else r)) =
        (fun r : PCLRow => r.channel_id == c.pk) := by
      funext r
      by_cases h : r.channel_id == c.pk <;> simp [Function.comp, h]
    rw [hpg]
    obtain ⟨r₀, hr₀⟩ := Option.isSome_iff_exists.mp
      (List.find?_isSome.mpr (List.any_eq_true.mp hany))
    have hp : r₀.channel_id = c.pk := by simpa using List.find?_some hr₀
    rw [hr₀]
    simp [hp]
  · rw [if_neg hany, List.find?_append]
    have hnone : rows.find? (fun r => r.channel_id == c.pk) = none :=
      List.find?_eq_none.mpr
        (fun x hx hp => hany (List.any_eq_true.mpr ⟨x, hx, hp⟩))
    simp [hnone]

theorem lookupRow_update_other (rows : List PCLRow) (c : ChannelModel)
    (pub : Bool) (date : Option Nat) (pk : Nat) (hne : pk ≠ c.pk) :
    lookupRow (update_or_create rows c pub date) pk = lookupRow rows pk := by
  unfold update_or_create lookupRow
  by_cases hany : rows.any (fun r => r.channel_id == c.pk)
  · rw [if_pos hany, List.find?_map]
    have hpg : ((fun r : PCLRow => r.channel_id == pk) ∘
        (fun r : PCLRow => if r.channel_id == c.pk then ⟨c.pk, pub, date⟩ else r)) =
        (fun r : PCLRow => r.channel_id == pk) := by
      funext r
      by_cases h : r.channel_id == c.pk
      · have h' : r.channel_id = c.pk := by simpa using h
        simp [Function.comp, h, h', Ne.symm hne]
      · simp [Function.comp, h]
    rw [hpg]
    cases hfind : rows.find? (fun r => r.channel_id == pk) with
    | none => simp
    | some r₀ =>
      have hp : r₀.channel_id = pk := by simpa using List.find?_some hfind
      simp [hp, hne]
  · rw [if_neg hany, List.find?_append]
    have hnew : ((PCLRow.mk c.pk pub date).channel_id == pk) = false := by
      simp [Ne.symm hne]
    simp [hnew]

theorem lookupRow_add_channels (rows : List PCLRow)
    (adds : List (AddChannelInput × ChannelModel)) (pk : Nat)
    (hnd : (adds.map (fun e => e.2.pk)).Nodup) :
    lookupRow (ProductChannelListingUpdate.add_channels rows adds) pk =
      match adds.find? (fun e => e.2.pk == pk) with
      | some e => some ⟨pk, e.1.is_published, e.1.publication_date⟩
      | none => lookupRow rows pk := by
  induction adds generalizing rows with
  | nil => simp [ProductChannelListingUpdate.add_channels]
  | cons e es ih =>
    simp only [List.map_cons, List.nodup_cons] at hnd
    obtain ⟨hnotin, hnd'⟩ := hnd
    have step : ProductChannelListingUpdate.add_channels rows (e :: es) =
        ProductChannelListingUpdate.add_channels
          (update_or_create rows e.2 e.1.is_published e.1.publication_date) es := rfl
    rw [step, ih _ hnd']
    by_cases hpk : e.2.pk = pk
    · have hes : es.find? (fun x => x.2.pk == pk) = none := by
        rw [List.find?_eq_none]
        intro x hx hpx
        have : x.2.pk = pk := by simpa using hpx
        exact hnotin (by rw [hpk, ← this]; exact List.mem_map_of_mem _ hx)
      rw [hes, List.find?_cons]
      have : (e.2.pk == pk) = true := by simpa using hpk
      rw [this]
      rw [← hpk, lookupRow_update_self]
    · rw [List.find?_cons]
      have : (e.2.pk == pk) = false := by simpa using hpk
      rw [this]
      cases hf : es.find? (fun x => x.2.pk == pk) with
      | some x => rfl
      | none =>
        exact lookupRow_update_other rows e.2 e.1.is_published e.1.publication_date
          pk (fun h => hpk h.symm)

theorem lookupRow_cons (r : PCLRow) (rs : List PCLRow) (pk : Nat) :
    lookupRow (r :: rs) pk =
      if r.channel_id = pk then some r else lookupRow rs pk := by
  cases h : (r.channel_id == pk) with
  | true =>
    have h' : r.channel_id = pk := by simpa using h
    simp [lookupRow, List.find?_cons, h, h']
  | false =>
    have h' : ¬ r.channel_id = pk := by simpa using h
    simp [lookupRow, List.find?_cons, h, h']

theorem lookupRow_remove (rows : List PCLRow) (remove : List Nat) (pk : Nat) :
    lookupRow (ProductChannelListingUpdate.remove_channels rows remove) pk =
      if remove.contains pk then none else lookupRow rows pk := by
  induction rows with
  | nil => simp [ProductChannelListingUpdate.remove_channels, lookupRow]
  | cons r rs ih =>
    simp only [ProductChannelListingUpdate.remove_channels] at ih ⊢
    rw [List.filter_cons]
    cases hr : remove.contains r.channel_id with
    | true =>
      have hrm : r.channel_id ∈ remove := by simpa using hr
      simp only [hr, Bool.not_true, Bool.false_eq_true, if_false]
      rw [ih, lookupRow_cons]
      by_cases hc : pk ∈ remove
      · simp [hc]
      · have hpk : ¬ r.channel_id = pk := fun h => hc (h ▸ hrm)
        simp [hc, hpk]
    | false =>
      have hrm : r.channel_id ∉ remove := by simpa using hr
      simp only [hr, Bool.not_false, if_true]
      rw [lookupRow_cons, lookupRow_cons, ih]
      by_cases hpk : r.channel_id = pk
      · have hc : pk ∉ remove := hpk ▸ hrm
        simp [hpk, hc]
      · simp [hpk]

theorem lookupVRow_update_self (rows : List VCLRow) (c : ChannelModel)
    (price : Option Int) :
    lookupVRow (vcl_update_or_create rows c price) c.pk =
      some ⟨c.pk, price, c.currency_code⟩ := by
  unfold vcl_update_or_create lookupVRow
  by_cases hany : rows.any (fun r => r.channel_id == c.pk)
  · rw [if_pos hany, List.find?_map]
    have hpg : ((fun r : VCLRow => r.channel_id == c.pk) ∘
        (fun r : VCLRow =>
          if r.channel_id == c.pk then ⟨c.pk, price, c.currency_code⟩ else r)) =
        (fun r : VCLRow => r.channel_id == c.pk) := by
      funext r
      by_cases h : r.channel_id == c.pk <;> simp [Function.comp, h]
    rw [hpg]
    obtain ⟨r₀, hr₀⟩ := Option.isSome_iff_exists.mp
      (List.find?_isSome.mpr (List.any_eq_true.mp hany))
    have hp : r₀.channel_id = c.pk := by simpa using List.find?_some hr₀
    rw [hr₀]
    simp [hp]
  · rw [if_neg hany, List.find?_append]
    have hnone : rows.find? (fun r => r.channel_id == c.pk) = none :=
      List.find?_eq_none.mpr
        (fun x hx hp => hany (List.any_eq_true.mpr ⟨x, hx, hp⟩))
    simp [hnone]

theorem lookupVRow_update_other (rows : List VCLRow) (c : ChannelModel)
    (price : Option Int) (pk : Nat) (hne : pk ≠ c.pk) :
    lookupVRow (vcl_update_or_create rows c price) pk = lookupVRow rows pk := by
  unfold vcl_update_or_create lookupVRow
  by_cases hany : rows.any (fun r => r.channel_id == c.pk)
  · rw [if_pos hany, List.find?_map]
    have hpg : ((fun r : VCLRow => r.channel_id == pk) ∘
        (fun r : VCLRow =>
          if r.channel_id == c.pk then ⟨c.pk, price, c.currency_code⟩ else r)) =
        (fun r : VCLRow => r.channel_id == pk) := by
      funext r
      by_cases h : r.channel_id == c.pk
      · have h' : r.channel_id = c.pk := by simpa using h
        simp [Function.comp, h, h', Ne.symm hne]
      · simp [Function.comp, h]
    rw [hpg]
    cases hfind : rows.find? (fun r => r.channel_id == pk) with
    | none => simp
    | some r₀ =>
      have hp : r₀.channel_id = pk := by simpa using List.find?_some hfind
      simp [hp, hne]
  · rw [if_neg hany, List.find?_append]
    have hnew : ((VCLRow.mk c.pk price c.currency_code).channel_id == pk) = false := by
      simp [Ne.symm hne]
    simp [hnew]

theorem lookupVRow_save (rows : List VCLRow)
    (cleaned : List (VariantAddInput × ChannelModel)) (pk : Nat)
    (hnd : (cleaned.map (fun e => e.2.pk)).Nodup) :
    lookupVRow (ProductVaraintChannelListingUpdate.save rows cleaned) pk =
      match cleaned.find? (fun e => e.2.pk == pk) with
      | some e => some ⟨pk, e.1.price, e.2.currency_code⟩
      | none => lookupVRow rows pk := by
  induction cleaned generalizing rows with
  | nil => simp [ProductVaraintChannelListingUpdate.save]
  | cons e es ih =>
    simp only [List.map_cons, List.nodup_cons] at hnd
    obtain ⟨hnotin, hnd'⟩ := hnd
    have step : ProductVaraintChannelListingUpdate.save rows (e :: es) =
        ProductVaraintChannelListingUpdate.save
          (vcl_update_or_create rows e.2 e.1.price) es := rfl
    rw [step, ih _ hnd']
    by_cases hpk : e.2.pk = pk
    · have hes : es.find? (fun x => x.2.pk == pk) = none := by
        rw [List.find?_eq_none]
        intro x hx hpx
        have : x.2.pk = pk := by simpa using hpx
        exact hnotin (by rw [hpk, ← this]; exact List.mem_map_of_mem _ hx)
      rw [hes, List.find?_cons]
      have : (e.2.pk == pk) = true := by simpa using hpk
      rw [this]
      rw [← hpk, lookupVRow_update_self]
    · rw [List.find?_cons]
      have : (e.2.pk == pk) = false := by simpa using hpk
      rw [this]
      cases hf : es.find? (fun x => x.2.pk == pk) with
      | some x => rfl
      | none =>
        exact lookupVRow_update_other rows e.2 e.1.price pk (fun h => hpk h.symm)

theorem zip_filterMap_resolved_variant {env : Env} {input : List VariantAddInput}
    (h : ∀ e ∈ input, (env e.channel_id).isSome = true) :
    input.zip ((input.map VariantAddInput.channel_id).filterMap env) =
      resolvedEntries env input := by
  induction input with
  | nil => rfl
  | cons e es ih =>
    obtain ⟨c, hc⟩ := Option.isSome_iff_exists.mp (h e (by simp))
    simp only [resolvedEntries, List.map_cons, List.filterMap_cons, hc,
      Option.map_some', List.zip_cons_cons]
    exact congrArg _ (ih (fun x hx => h x (by simp [hx])))

theorem clean_channels_ok_nil_inv {env : Env} {input : PCLUpdateInput}
    {cleaned : ProductChannelListingUpdate.CleanedChannels}
    (h : ProductChannelListingUpdate.clean_channels env input [] =
      Except.ok ([], cleaned)) :
    get_duplicates_ids (input.add_channels.map AddChannelInput.channel_id)
        input.remove_channels = [] ∧
      get_duplicated_values (input.add_channels.map AddChannelInput.channel_id) = [] ∧
      get_duplicated_values input.remove_channels = [] ∧
      (∀ e ∈ input.add_channels, (env e.channel_id).isSome = true) ∧
      cleaned = ⟨resolvedAdds env input.add_channels,
        resolve_global_ids_to_primary_keys env input.remove_channels⟩ := by
  by_cases h1 : get_duplicates_ids (input.add_channels.map AddChannelInput.channel_id)
      input.remove_channels = []
  case neg =>
    simp only [ProductChannelListingUpdate.clean_channels,
      ProductChannelListingUpdate.validate_duplicated_ids,
      ProductChannelListingUpdate.validate_duplicated_values,
      if_neg h1] at h
    simp at h
  case pos =>
  by_cases h2 : get_duplicated_values
      (input.add_channels.map AddChannelInput.channel_id) = []
  case neg =>
    simp only [ProductChannelListingUpdate.clean_channels,
      ProductChannelListingUpdate.validate_duplicated_ids,
      ProductChannelListingUpdate.validate_duplicated_values,
      if_pos h1, if_neg h2] at h
    simp at h
  case pos =>
  by_cases h3 : get_duplicated_values input.remove_channels = []
  case neg =>
    simp only [ProductChannelListingUpdate.clean_channels,
      ProductChannelListingUpdate.validate_duplicated_ids,
      ProductChannelListingUpdate.validate_duplicated_values,
      if_pos h1, if_pos h2, if_neg h3] at h
    simp at h
  case pos =>
  refine ⟨h1, h2, h3, ?_⟩
  simp only [ProductChannelListingUpdate.clean_channels,
    ProductChannelListingUpdate.validate_duplicated_ids,
    ProductChannelListingUpdate.validate_duplicated_values,
    if_pos h1, if_pos h2, if_pos h3, List.append_nil, if_pos rfl] at h
  by_cases ha : input.add_channels.map AddChannelInput.channel_id = []
  · have ha' : input.add_channels = [] := List.map_eq_nil_iff.mp ha
    rw [if_pos ha] at h
    simp only [ha'] at h ⊢
    refine ⟨by simp, ?_⟩
    injection h with h
    injection h with h₁ h₂
    rw [← h₂]
    simp [resolvedAdds]
  · rw [if_neg ha] at h
    cases hg : get_nodes_or_error env
        (input.add_channels.map AddChannelInput.channel_id) "channel_id" with
    | error e => rw [hg] at h; exact absurd h (by simp)
    | ok channels =>
      rw [hg] at h
      obtain ⟨hres, hch⟩ := get_nodes_or_error_ok hg
      have hres' : ∀ e ∈ input.add_channels, (env e.channel_id).isSome = true :=
        fun e he => hres e.channel_id (List.mem_map_of_mem _ he)
      refine ⟨hres', ?_⟩
      injection h with h
      injection h with h₁ h₂
      rw [← h₂, hch, zip_filterMap_resolved hres']

theorem perform_ok_inv {env : Env} {product : ProductModel} {rows final : List PCLRow}
    {input : PCLUpdateInput}
    (h : ProductChannelListingUpdate.perform_mutation env product rows input =
      .ok final) :
    ∃ cleaned, ProductChannelListingUpdate.clean_channels env input [] =
        .ok ([], cleaned) ∧
      final = ProductChannelListingUpdate.save rows cleaned := by
  unfold ProductChannelListingUpdate.perform_mutation at h
  cases hc : ProductChannelListingUpdate.clean_channels env input [] with
  | error e => rw [hc] at h; exact absurd h (by simp)
  | ok p =>
    obtain ⟨errors, cleaned⟩ := p
    rw [hc] at h
    simp only at h
    by_cases hcat : product.category = none
    · rw [if_pos hcat] at h
      unfold ProductChannelListingUpdate.validate_product_without_category at h
      by_cases he : (errors ++
          (if ((cleaned.add_channels.filter (fun e => e.1.is_published)).map
              (fun e => e.1.channel_id)) = [] then []
           else [⟨"is_published", .PRODUCT_WITHOUT_CATEGORY,
             (cleaned.add_channels.filter (fun e => e.1.is_published)).map
               (fun e => e.1.channel_id)⟩])) = []
      · rw [if_pos he] at h
        obtain ⟨he₁, _⟩ := List.append_eq_nil.mp he
        subst he₁
        injection h with h
        exact ⟨cleaned, rfl, h.symm⟩
      · rw [if_neg he] at h
        exact absurd h (by simp)
    · rw [if_neg hcat] at h
      by_cases he : errors = []
      · subst he
        rw [if_pos rfl] at h
        injection h with h
        exact ⟨cleaned, rfl, h.symm⟩
      · rw [if_neg he] at h
        exact absurd h (by simp)

theorem get_nodes_or_error_eval {env : Env} {ids : List String} (field : String)
    (hres : ∀ i ∈ ids, (env i).isSome = true) :
    get_nodes_or_error env ids field = .ok (ids.filterMap env) := by
  have h : ids.filter (fun i => (env i).isNone) = [] := by
    rw [List.filter_eq_nil_iff]
    intro i hi hN
    have hS := hres i hi
    rw [Option.isNone_iff_eq_none] at hN
    rw [hN] at hS
    simp at hS
  simp only [get_nodes_or_error, h]
  rw [if_pos trivial]

theorem clean_channels_eval {env : Env} {input : PCLUpdateInput}
    (h1 : get_duplicates_ids (input.add_channels.map AddChannelInput.channel_id)
      input.remove_channels = [])
    (h2 : get_duplicated_values
      (input.add_channels.map AddChannelInput.channel_id) = [])
    (h3 : get_duplicated_values input.remove_channels = [])
    (hres : ∀ e ∈ input.add_channels, (env e.channel_id).isSome = true) :
    ProductChannelListingUpdate.clean_channels env input [] =
      .ok ([], ⟨resolvedAdds env input.add_channels,
        resolve_global_ids_to_primary_keys env input.remove_channels⟩) := by
  simp only [ProductChannelListingUpdate.clean_channels,
    ProductChannelListingUpdate.validate_duplicated_ids,
    ProductChannelListingUpdate.validate_duplicated_values,
    if_pos h1, if_pos h2, if_pos h3, List.append_nil, List.nil_append]
  rw [if_pos trivial]
  by_cases ha : input.add_channels.map AddChannelInput.channel_id = []
  · rw [if_pos ha]
    have ha' : input.add_channels = [] := List.map_eq_nil_iff.mp ha
    simp [ha', resolvedAdds]
  · rw [if_neg ha]
    have hres' : ∀ i ∈ input.add_channels.map AddChannelInput.channel_id,
        (env i).isSome = true := by
      intro i hi
      obtain ⟨e, he, rfl⟩ := List.mem_map.mp hi
      exact hres e he
    rw [get_nodes_or_error_eval _ hres']
    simp only [zip_filterMap_resolved hres]

theorem clean_channels_structural {env : Env} {input : PCLUpdateInput}
    (hne : structuralErrors input ≠ []) :
    ProductChannelListingUpdate.clean_channels env input [] =
      .ok (structuralErrors input, ⟨[], []⟩) := by
  unfold structuralErrors at hne ⊢
  simp only [ProductChannelListingUpdate.clean_channels,
    ProductChannelListingUpdate.validate_duplicated_ids,
    ProductChannelListingUpdate.validate_duplicated_values, List.nil_append]
  rw [if_neg hne]

theorem perform_structural {env : Env} {product : ProductModel}
    {rows : List PCLRow} {input : PCLUpdateInput}
    (hne : structuralErrors input ≠ []) :
    ProductChannelListingUpdate.perform_mutation env product rows input =
      .error (structuralErrors input) := by
  unfold ProductChannelListingUpdate.perform_mutation
  rw [clean_channels_structural hne]
  simp only [ProductChannelListingUpdate.validate_product_without_category,
    List.filter_nil, List.map_nil, if_true, List.append_nil, ite_self]
  rw [if_neg hne]

theorem vclean_channels_eval {env : Env} {input : List VariantAddInput}
    (hnd : (input.map VariantAddInput.channel_id).Nodup)
    (hres : ∀ e ∈ input, (env e.channel_id).isSome = true) :
    ProductVaraintChannelListingUpdate.clean_channels env input [] =
      .ok ([], resolvedEntries env input) := by
  simp only [ProductVaraintChannelListingUpdate.clean_channels]
  rw [if_pos (get_duplicated_values_eq_nil.mpr hnd)]
  by_cases ha : input.map VariantAddInput.channel_id = []
  · rw [if_pos ha]
    have ha' : input = [] := List.map_eq_nil_iff.mp ha
    simp [ha', resolvedEntries]
  · rw [if_neg ha]
    have hres' : ∀ i ∈ input.map VariantAddInput.channel_id,
        (env i).isSome = true := by
      intro i hi
      obtain ⟨e, he, rfl⟩ := List.mem_map.mp hi
      exact hres e he
    rw [get_nodes_or_error_eval _ hres']
    simp only [zip_filterMap_resolved_variant hres]

theorem vclean_channels_ok_nil_inv {env : Env} {input : List VariantAddInput}
    {cleaned : List (VariantAddInput × ChannelModel)}
    (h : ProductVaraintChannelListingUpdate.clean_channels env input [] =
      Except.ok ([], cleaned)) :
    (input.map VariantAddInput.channel_id).Nodup ∧
      (∀ e ∈ input, (env e.channel_id).isSome = true) ∧
      cleaned = resolvedEntries env input := by
  by_cases hd : get_duplicated_values (input.map VariantAddInput.channel_id) = []
  · simp only [ProductVaraintChannelListingUpdate.clean_channels, if_pos hd] at h
    refine ⟨get_duplicated_values_eq_nil.mp hd, ?_⟩
    by_cases ha : input.map VariantAddInput.channel_id = []
    · rw [if_pos ha] at h
      have ha' : input = [] := List.map_eq_nil_iff.mp ha
      subst ha'
      simp at h
      exact ⟨by simp, by simp [resolvedEntries, h]⟩
    · rw [if_neg ha] at h
      cases hg : get_nodes_or_error env
          (input.map VariantAddInput.channel_id) "channel_id" with
      | error e => rw [hg] at h; exact absurd h (by simp)
      | ok channels =>
        rw [hg] at h
        obtain ⟨hres, hch⟩ := get_nodes_or_error_ok hg
        have hres' : ∀ e ∈ input, (env e.channel_id).isSome = true :=
          fun e he => hres e.channel_id (List.mem_map_of_mem _ he)
        refine ⟨hres', ?_⟩
        simp only [Except.ok.injEq, Prod.mk.injEq] at h
        rw [← h.2, hch, zip_filterMap_resolved_variant hres']
  · simp only [ProductVaraintChannelListingUpdate.clean_channels, if_neg hd] at h
    simp at h

theorem vperform_ok_inv {env : Env} {product_rows : List PCLRow}
    {rows final : List VCLRow} {input : List VariantAddInput}
    (h : ProductVaraintChannelListingUpdate.perform_mutation env product_rows
      rows input = .ok final) :
    ∃ cleaned, ProductVaraintChannelListingUpdate.clean_channels env input [] =
        .ok ([], cleaned) ∧
      final = ProductVaraintChannelListingUpdate.save rows cleaned := by
  unfold ProductVaraintChannelListingUpdate.perform_mutation at h
  cases hc : ProductVaraintChannelListingUpdate.clean_channels env input [] with
  | error e => rw [hc] at h; exact absurd h (by simp)
  | ok p =>
    obtain ⟨errors, cleaned⟩ := p
    rw [hc] at h
    simp only [ProductVaraintChannelListingUpdate.validate_product_assigned_to_channel,
      ProductVaraintChannelListingUpdate.clean_prices] at h
    by_cases hA : cleaned.filter
        (fun e => !((product_rows.map PCLRow.channel_id).contains e.2.pk)) = []
    case neg =>
      rw [if_neg hA] at h
      simp at h
    case pos =>
    rw [if_pos hA, List.append_nil] at h
    by_cases hP : (cleaned.filter
        (fun e => match e.1.price with
          | some p => decide (p < 0)
          | none => false)).map (fun e => e.1.channel_id) = []
    case neg =>
      rw [if_neg hP] at h
      simp at h
    case pos =>
    rw [if_pos hP, List.append_nil] at h
    by_cases he : errors = []
    · subst he
      rw [if_pos rfl] at h
      injection h with h
      exact ⟨cleaned, rfl, h.symm⟩
    · rw [if_neg he] at h
      exact absurd h (by simp)

theorem pkInjOn_mono {env : Env} {l l' : List String}
    (hsub : ∀ x ∈ l', x ∈ l) (h : pkInjOn env l) : pkInjOn env l' :=
  fun a ha b hb => h a (hsub a ha) b (hsub b hb)

theorem mem_resolvedAdds {env : Env} {adds : List AddChannelInput}
    {e : AddChannelInput × ChannelModel} (h : e ∈ resolvedAdds env adds) :
    e.1 ∈ adds ∧ env e.1.channel_id = some e.2 := by
  unfold resolvedAdds at h
  obtain ⟨a, ha, hma⟩ := List.mem_filterMap.mp h
  cases hc : env a.channel_id with
  | none => rw [hc] at hma; simp at hma
  | some c =>
    rw [hc] at hma
    simp only [Option.map_some', Option.some.injEq] at hma
    rw [← hma]
    exact ⟨ha, hc⟩

theorem mem_resolvedEntries {env : Env} {input : List VariantAddInput}
    {e : VariantAddInput × ChannelModel} (h : e ∈ resolvedEntries env input) :
    e.1 ∈ input ∧ env e.1.channel_id = some e.2 := by
  unfold resolvedEntries at h
  obtain ⟨a, ha, hma⟩ := List.mem_filterMap.mp h
  cases hc : env a.channel_id with
  | none => rw [hc] at hma; simp at hma
  | some c =>
    rw [hc] at hma
    simp only [Option.map_some', Option.some.injEq] at hma
    rw [← hma]
    exact ⟨ha, hc⟩

theorem resolvedAdds_pks_nodup {env : Env} {adds : List AddChannelInput}
    (hnd : (adds.map AddChannelInput.channel_id).Nodup)
    (hinj : pkInjOn env (adds.map AddChannelInput.channel_id)) :
    ((resolvedAdds env adds).map (fun e => e.2.pk)).Nodup := by
  induction adds with
  | nil => simp [resolvedAdds]
  | cons e es ih =>
    simp only [List.map_cons, List.nodup_cons] at hnd
    obtain ⟨hne, hnd'⟩ := hnd
    have hinj' : pkInjOn env (es.map AddChannelInput.channel_id) :=
      pkInjOn_mono (fun x hx => by simp [hx]) hinj
    unfold resolvedAdds
    rw [List.filterMap_cons]
    cases hc : env e.channel_id with
    | none => exact ih hnd' hinj'
    | some c =>
      simp only [Option.map_some']
      rw [List.map_cons, List.nodup_cons]
      refine ⟨?_, ih hnd' hinj'⟩
      intro hmem
      obtain ⟨x, hx, hxpk⟩ := List.mem_map.mp hmem
      obtain ⟨hx1, hx2⟩ := mem_resolvedAdds hx
      have heq : e.channel_id = x.1.channel_id :=
        hinj e.channel_id (by simp) x.1.channel_id
          (by simp [List.mem_map_of_mem AddChannelInput.channel_id hx1])
          (by rw [hc, hx2]; simpa using hxpk.symm)
          (by rw [hc]; rfl)
      exact hne (heq ▸ List.mem_map_of_mem AddChannelInput.channel_id hx1)

theorem resolvedEntries_pks_nodup {env : Env} {input : List VariantAddInput}
    (hnd : (input.map VariantAddInput.channel_id).Nodup)
    (hinj : pkInjOn env (input.map VariantAddInput.channel_id)) :
    ((resolvedEntries env input).map (fun e => e.2.pk)).Nodup := by
  induction input with
  | nil => simp [resolvedEntries]
  | cons e es ih =>
    simp only [List.map_cons, List.nodup_cons] at hnd
    obtain ⟨hne, hnd'⟩ := hnd
    have hinj' : pkInjOn env (es.map VariantAddInput.channel_id) :=
      pkInjOn_mono (fun x hx => by simp [hx]) hinj
    unfold resolvedEntries
    rw [List.filterMap_cons]
    cases hc : env e.channel_id with
    | none => exact ih hnd' hinj'
    | some c =>
      simp only [Option.map_some']
      rw [List.map_cons, List.nodup_cons]
      refine ⟨?_, ih hnd' hinj'⟩
      intro hmem
      obtain ⟨x, hx, hxpk⟩ := List.mem_map.mp hmem
      obtain ⟨hx1, hx2⟩ := mem_resolvedEntries hx
      have heq : e.channel_id = x.1.channel_id :=
        hinj e.channel_id (by simp) x.1.channel_id
          (by simp [List.mem_map_of_mem VariantAddInput.channel_id hx1])
          (by rw [hc, hx2]; simpa using hxpk.symm)
          (by rw [hc]; rfl)
      exact hne (heq ▸ List.mem_map_of_mem VariantAddInput.channel_id hx1)

theorem resolvedAdds_find? {env : Env} {adds : List AddChannelInput} {pk : Nat}
    (hres : ∀ e ∈ adds, (env e.channel_id).isSome = true) :
    ((resolvedAdds env adds).find? (fun e => e.2.pk == pk)).map Prod.fst =
      adds.find? (fun e => pkMatches env e.channel_id pk) := by
  induction adds with
  | nil => rfl
  | cons a as ih =>
    obtain ⟨c, hc⟩ := Option.isSome_iff_exists.mp (hres a (by simp))
    have ih' := ih (fun x hx => hres x (by simp [hx]))
    unfold resolvedAdds at ih' ⊢
    rw [List.filterMap_cons, hc]
    simp only [Option.map_some']
    rw [List.find?_cons, List.find?_cons]
    have hm : pkMatches env a.channel_id pk = (c.pk == pk) := by
      unfold pkMatches
      rw [hc]
    rw [hm]
    cases hcp : (c.pk == pk) with
    | true => simp
    | false => exact ih'

theorem resolved_add_not_removed {env : Env} {input : PCLUpdateInput}
    {ec : AddChannelInput × ChannelModel}
    (h1 : get_duplicates_ids (input.add_channels.map AddChannelInput.channel_id)
      input.remove_channels = [])
    (hinj : pkInjOn env (requestIds input))
    (hmem : ec ∈ resolvedAdds env input.add_channels) :
    (resolve_global_ids_to_primary_keys env input.remove_channels).contains
      ec.2.pk = false := by
  obtain ⟨hadd, hres⟩ := mem_resolvedAdds hmem
  by_contra hc
  rw [Bool.not_eq_false] at hc
  have hmemr : ec.2.pk ∈ input.remove_channels.filterMap
      (fun i => (env i).map ChannelModel.pk) := by
    simpa [resolve_global_ids_to_primary_keys, List.contains] using hc
  obtain ⟨rid, hrid, hmap⟩ := List.mem_filterMap.mp hmemr
  cases hre : env rid with
  | none => rw [hre] at hmap; simp at hmap
  | some c' =>
    rw [hre] at hmap
    simp only [Option.map_some', Option.some.injEq] at hmap
    have heq : ec.1.channel_id = rid :=
      hinj ec.1.channel_id
        (List.mem_append_left _
          (List.mem_map_of_mem AddChannelInput.channel_id hadd))
        rid (List.mem_append_right _ hrid)
        (by rw [hres, hre]; simp [hmap])
        (by rw [hres]; rfl)
    rw [get_duplicates_ids_eq_nil] at h1
    exact h1 ec.1.channel_id
      (List.mem_map_of_mem AddChannelInput.channel_id hadd) (heq ▸ hrid)

theorem find?_resolvedEntry_eq {l : List (VariantAddInput × ChannelModel)}
    {e : VariantAddInput × ChannelModel} (hmem : e ∈ l)
    (hnd : (l.map (fun x => x.2.pk)).Nodup) :
    l.find? (fun x => x.2.pk == e.2.pk) = some e := by
  induction l with
  | nil => cases hmem
  | cons b bs ih =>
    simp only [List.map_cons, List.nodup_cons] at hnd
    obtain ⟨hb, hnd'⟩ := hnd
    rw [List.find?_cons]
    cases hbe : (b.2.pk == e.2.pk) with
    | true =>
      have hbe' : b.2.pk = e.2.pk := by simpa using hbe
      cases List.mem_cons.mp hmem with
      | inl h => rw [h]
      | inr h =>
        exact absurd (hbe' ▸ List.mem_map_of_mem (fun x => x.2.pk) h) hb
    | false =>
      cases List.mem_cons.mp hmem with
      | inl h => subst h; simp at hbe
      | inr h => exact ih h hnd'

theorem if_singleton_eq_nil {α : Type} {c : Prop} [Decidable c] {x : α}
    (h : (if c then ([] : List α) else [x]) = []) : c := by
  by_cases hc : c
  · exact hc
  · rw [if_neg hc] at h
    simp at h

theorem structuralErrors_nil_inv {input : PCLUpdateInput}
    (hs : structuralErrors input = []) :
    get_duplicates_ids (input.add_channels.map AddChannelInput.channel_id)
        input.remove_channels = [] ∧
      get_duplicated_values (input.add_channels.map AddChannelInput.channel_id) = [] ∧
      get_duplicated_values input.remove_channels = [] := by
  unfold structuralErrors at hs
  obtain ⟨h12, h3⟩ := List.append_eq_nil.mp hs
  obtain ⟨h1, h2⟩ := List.append_eq_nil.mp h12
  exact ⟨if_singleton_eq_nil h1, if_singleton_eq_nil h2, if_singleton_eq_nil h3⟩

theorem clean_channels_not_found {env : Env} {input : PCLUpdateInput}
    (hs : structuralErrors input = [])
    (hnf : (input.add_channels.map AddChannelInput.channel_id).filter
      (fun i => (env i).isNone) ≠ []) :
    ProductChannelListingUpdate.clean_channels env input [] =
      .error ⟨"channel_id", .NOT_FOUND,
        (input.add_channels.map AddChannelInput.channel_id).filter
          (fun i => (env i).isNone)⟩ := by
  obtain ⟨h1, h2, h3⟩ := structuralErrors_nil_inv hs
  simp only [ProductChannelListingUpdate.clean_channels,
    ProductChannelListingUpdate.validate_duplicated_ids,
    ProductChannelListingUpdate.validate_duplicated_values,
    if_pos h1, if_pos h2, if_pos h3, List.append_nil, List.nil_append]
  rw [if_pos trivial]
  have ha : input.add_channels.map AddChannelInput.channel_id ≠ [] := by
    intro h
    exact hnf (by rw [h]; rfl)
  rw [if_neg ha]
  have hg : get_nodes_or_error env
      (input.add_channels.map AddChannelInput.channel_id) "channel_id" =
      .error ⟨"channel_id", .NOT_FOUND,
        (input.add_channels.map AddChannelInput.channel_id).filter
          (fun i => (env i).isNone)⟩ := by
    simp only [get_nodes_or_error]
    rw [if_neg hnf]
  rw [hg]

theorem update_remove_comm {rows : List PCLRow} {c : ChannelModel}
    {pub : Bool} {date : Option Nat} {rems : List Nat}
    (hc : rems.contains c.pk = false) :
    ProductChannelListingUpdate.remove_channels
        (update_or_create rows c pub date) rems =
      update_or_create
        (ProductChannelListingUpdate.remove_channels rows rems) c pub date := by
  unfold update_or_create ProductChannelListingUpdate.remove_channels
  by_cases hany : rows.any (fun r => r.channel_id == c.pk)
  · rw [if_pos hany]
    obtain ⟨r₀, hr₀m, hr₀⟩ := List.any_eq_true.mp hany
    have hr₀' : r₀.channel_id = c.pk := by simpa using hr₀
    have hany' : (rows.filter (fun r => !rems.contains r.channel_id)).any
        (fun r => r.channel_id == c.pk) = true := by
      refine List.any_eq_true.mpr ⟨r₀, List.mem_filter.mpr ⟨hr₀m, ?_⟩, hr₀⟩
      rw [hr₀', hc]
      rfl
    rw [if_pos hany', List.filter_map]
    have hpg : ((fun r : PCLRow => !rems.contains r.channel_id) ∘
        (fun r : PCLRow => if r.channel_id == c.pk then ⟨c.pk, pub, date⟩ else r)) =
        (fun r : PCLRow => !rems.contains r.channel_id) := by
      funext r
      by_cases h : r.channel_id == c.pk
      · have h' : r.channel_id = c.pk := by simpa using h
        simp [Function.comp, h, h']
      · simp [Function.comp, h]
    rw [hpg]
  · rw [if_neg hany]
    have hany' : (rows.filter (fun r => !rems.contains r.channel_id)).any
        (fun r => r.channel_id == c.pk) = false := by
      rw [Bool.eq_false_iff]
      intro h
      obtain ⟨r₀, hr₀m, hr₀⟩ := List.any_eq_true.mp h
      exact hany (List.any_eq_true.mpr ⟨r₀, (List.mem_filter.mp hr₀m).1, hr₀⟩)
    rw [if_neg (by rw [hany']; exact Bool.false_ne_true), List.filter_append]
    have hcm : c.pk ∉ rems := by simpa using hc
    have hone : ([(⟨c.pk, pub, date⟩ : PCLRow)]).filter
        (fun r => !rems.contains r.channel_id) = [⟨c.pk, pub, date⟩] := by
      simp [List.filter_cons, hcm]
    rw [hone]

theorem save_comm {rows : List PCLRow}
    {adds : List (AddChannelInput × ChannelModel)} {rems : List Nat}
    (hdisj : ∀ ec ∈ adds, rems.contains ec.2.pk = false) :
    ProductChannelListingUpdate.remove_channels
        (ProductChannelListingUpdate.add_channels rows adds) rems =
      ProductChannelListingUpdate.add_channels
        (ProductChannelListingUpdate.remove_channels rows rems) adds := by
  induction adds generalizing rows with
  | nil => rfl
  | cons a as ih =>
    have hc := hdisj a (by simp)
    calc ProductChannelListingUpdate.remove_channels
          (ProductChannelListingUpdate.add_channels rows (a :: as)) rems
        = ProductChannelListingUpdate.remove_channels
            (ProductChannelListingUpdate.add_channels
              (update_or_create rows a.2 a.1.is_published a.1.publication_date) as)
            rems := rfl
      _ = ProductChannelListingUpdate.add_channels
            (ProductChannelListingUpdate.remove_channels
              (update_or_create rows a.2 a.1.is_published a.1.publication_date) rems)
            as := ih (fun x hx => hdisj x (by simp [hx]))
      _ = ProductChannelListingUpdate.add_channels
            (update_or_create
              (ProductChannelListingUpdate.remove_channels rows rems)
              a.2 a.1.is_published a.1.publication_date) as := by
            rw [update_remove_comm hc]
      _ = ProductChannelListingUpdate.add_channels
            (ProductChannelListingUpdate.remove_channels rows rems) (a :: as) := rfl

theorem resolvedAdds_published {env : Env} {adds : List AddChannelInput}
    (hres : ∀ e ∈ adds, (env e.channel_id).isSome = true) :
    ((resolvedAdds env adds).filter (fun e => e.1.is_published)).map
        (fun e => e.1.channel_id) =
      (adds.filter AddChannelInput.is_published).map AddChannelInput.channel_id := by
  induction adds with
  | nil => rfl
  | cons e es ih =>
    obtain ⟨c, hc⟩ := Option.isSome_iff_exists.mp (hres e (by simp))
    have ih' := ih (fun x hx => hres x (by simp [hx]))
    unfold resolvedAdds at ih' ⊢
    rw [List.filterMap_cons, hc]
    simp only [Option.map_some']
    rw [List.filter_cons, List.filter_cons]
    cases hp : e.is_published with
    | true => simp [hp, ih']
    | false => simp [hp, ih']

theorem vclean_channels_duplicates {env : Env} {input : List VariantAddInput}
    (hd : get_duplicated_values (input.map VariantAddInput.channel_id) ≠ []) :
    ProductVaraintChannelListingUpdate.clean_channels env input [] =
      .ok ([⟨"channelId", .DUPLICATED_INPUT_ITEM,
        get_duplicated_values (input.map VariantAddInput.channel_id)⟩], []) := by
  simp only [ProductVaraintChannelListingUpdate.clean_channels]
  rw [if_neg hd, List.nil_append]

theorem vclean_channels_not_found {env : Env} {input : List VariantAddInput}
    (hd : get_duplicated_values (input.map VariantAddInput.channel_id) = [])
    (hnf : (input.map VariantAddInput.channel_id).filter
      (fun i => (env i).isNone) ≠ []) :
    ProductVaraintChannelListingUpdate.clean_channels env input [] =
      .error ⟨"channel_id", .NOT_FOUND,
        (input.map VariantAddInput.channel_id).filter
          (fun i => (env i).isNone)⟩ := by
  simp only [ProductVaraintChannelListingUpdate.clean_channels]
  rw [if_pos hd]
  have ha : input.map VariantAddInput.channel_id ≠ [] := by
    intro h
    exact hnf (by rw [h]; rfl)
  rw [if_neg ha]
  have hg : get_nodes_or_error env (input.map VariantAddInput.channel_id)
      "channel_id" = .error ⟨"channel_id", .NOT_FOUND,
        (input.map VariantAddInput.channel_id).filter
          (fun i => (env i).isNone)⟩ := by
    simp only [get_nodes_or_error]
    rw [if_neg hnf]
  rw [hg]

theorem vperform_duplicates {env : Env} {product_rows : List PCLRow}
    {rows : List VCLRow} {input : List VariantAddInput}
    (hd : get_duplicated_values (input.map VariantAddInput.channel_id) ≠ []) :
    ProductVaraintChannelListingUpdate.perform_mutation env product_rows rows
        input =
      .error [⟨"channelId", .DUPLICATED_INPUT_ITEM,
        get_duplicated_values (input.map VariantAddInput.channel_id)⟩] := by
  unfold ProductVaraintChannelListingUpdate.perform_mutation
  rw [vclean_channels_duplicates hd]
  simp only [ProductVaraintChannelListingUpdate.validate_product_assigned_to_channel,
    ProductVaraintChannelListingUpdate.clean_prices,
    List.filter_nil, List.map_nil, if_true, List.append_nil]
  rw [if_neg (by simp)]

theorem vperform_validation_errors {env : Env} {product_rows : List PCLRow}
    {rows : List VCLRow} {input : List VariantAddInput}
    (hnd : (input.map VariantAddInput.channel_id).Nodup)
    (hres : ∀ e ∈ input, (env e.channel_id).isSome = true)
    (hbad : unassignedIds env product_rows input ≠ [] ∨
      invalidPriceIds env input ≠ []) :
    ProductVaraintChannelListingUpdate.perform_mutation env product_rows rows
        input =
      .error
        ((if unassignedIds env product_rows input = [] then []
          else [⟨"input", .PRODUCT_NOT_ASSIGNED_TO_CHANNEL,
            unassignedIds env product_rows input⟩]) ++
         (if invalidPriceIds env input = [] then []
          else [⟨"price", .INVALID, invalidPriceIds env input⟩])) := by
  unfold unassignedIds invalidPriceIds at hbad ⊢
  unfold ProductVaraintChannelListingUpdate.perform_mutation
  rw [vclean_channels_eval hnd hres]
  simp only [ProductVaraintChannelListingUpdate.validate_product_assigned_to_channel,
    ProductVaraintChannelListingUpdate.clean_prices, List.nil_append]
  by_cases hAf : (resolvedEntries env input).filter
      (fun e => !((product_rows.map PCLRow.channel_id).contains e.2.pk)) = []
  · have hAm : ((resolvedEntries env input).filter
        (fun e => !((product_rows.map PCLRow.channel_id).contains e.2.pk))).map
        (fun e => e.1.channel_id) = [] := by rw [hAf]; rfl
    rw [if_pos hAf, if_pos hAm]
    by_cases hP : ((resolvedEntries env input).filter
        (fun e => match e.1.price with
          | some p => decide (p < 0)
          | none => false)).map (fun e => e.1.channel_id) = []
    · rcases hbad with hb | hb
      · exact absurd hAm hb
      · exact absurd hP hb
    · rw [if_neg hP]
      simp
  · have hAm : ((resolvedEntries env input).filter
        (fun e => !((product_rows.map PCLRow.channel_id).contains e.2.pk))).map
        (fun e => e.1.channel_id) ≠ [] := by
      rw [Ne, List.map_eq_nil_iff]
      exact hAf
    rw [if_neg hAf, if_neg hAm]
    by_cases hP : ((resolvedEntries env input).filter
        (fun e => match e.1.price with
          | some p => decide (p < 0)
          | none => false)).map (fun e => e.1.channel_id) = []
    · rw [if_pos hP]
      simp
    · rw [if_neg hP]
      simp

theorem perform_category_only_error {env : Env} {product : ProductModel}
    {rows : List PCLRow} {input : PCLUpdateInput}
    (hcat : product.category = none)
    (hs : structuralErrors input = [])
    (hres : ∀ e ∈ input.add_channels, (env e.channel_id).isSome = true)
    (hpub : publishedIds input ≠ []) :
    ProductChannelListingUpdate.perform_mutation env product rows input =
      .error [⟨"is_published", .PRODUCT_WITHOUT_CATEGORY, publishedIds input⟩] := by
  obtain ⟨h1, h2, h3⟩ := structuralErrors_nil_inv hs
  unfold ProductChannelListingUpdate.perform_mutation
  rw [clean_channels_eval h1 h2 h3 hres]
  simp only [ProductChannelListingUpdate.validate_product_without_category,
    List.nil_append, hcat, if_true]
  have hoff : ((resolvedAdds env input.add_channels).filter
      (fun e => e.1.is_published)).map (fun e => e.1.channel_id) =
      publishedIds input := resolvedAdds_published hres
  rw [hoff, if_neg hpub, if_neg (by simp)]

/-- C7: for a product with no category and a request whose add list
contains the same channel identifier twice with different publish flags,
the response is a single `DUPLICATED_INPUT_ITEM` error for that channel
and no `PRODUCT_WITHOUT_CATEGORY` error: the structural duplicate makes
the clean stage skip resolution and return an empty cleaned input, so
the category check evaluates nothing. -/
theorem C7_duplicate_add_skips_category_check (env : Env) (product : ProductModel)
    (rows : List PCLRow) (a : String) (p₁ p₂ : Bool) (d₁ d₂ : Option Nat)
    (hcat : product.category = none) (hne : p₁ ≠ p₂) :
    ProductChannelListingUpdate.perform_mutation env product rows
      ⟨[⟨a, p₁, d₁⟩, ⟨a, p₂, d₂⟩], []⟩ =
      .error [⟨"add_channels", .DUPLICATED_INPUT_ITEM, [a]⟩] := by
  have hdup : get_duplicated_values [a, a] = [a] := by
    unfold get_duplicated_values
    have hc : [a, a].count a = 2 := by simp
    simp [List.filter_cons, hc, List.dedup_cons_of_mem]
  have hse : structuralErrors ⟨[⟨a, p₁, d₁⟩, ⟨a, p₂, d₂⟩], []⟩ =
      [⟨"add_channels", .DUPLICATED_INPUT_ITEM, [a]⟩] := by
    unfold structuralErrors
    have hc1 : get_duplicates_ids
        ((PCLUpdateInput.mk [⟨a, p₁, d₁⟩, ⟨a, p₂, d₂⟩] []).add_channels.map
          AddChannelInput.channel_id) [] = [] := by
      unfold get_duplicates_ids
      simp
    have hmap : (PCLUpdateInput.mk [⟨a, p₁, d₁⟩, ⟨a, p₂, d₂⟩] []).add_channels.map
        AddChannelInput.channel_id = [a, a] := rfl
    rw [hc1, hmap, hdup]
    simp [get_duplicated_values]
  rw [perform_structural (by rw [hse]; simp), hse]

/-- C6 counterexample: for the request that adds channel "A" twice and
also removes "A", the response contains two `DUPLICATED_INPUT_ITEM`
errors (one for the cross add/remove duplication and one for the
duplication inside the add list), not exactly one, refuting the claim as
stated at this input. -/
theorem C6_counterexample :
    ProductChannelListingUpdate.perform_mutation envAB ⟨some 7⟩ []
      ⟨[⟨"A", true, none⟩, ⟨"A", false, none⟩], ["A"]⟩ =
      .error [⟨"input", .DUPLICATED_INPUT_ITEM, ["A"]⟩,
        ⟨"add_channels", .DUPLICATED_INPUT_ITEM, ["A"]⟩] ∧
    ([⟨"input", .DUPLICATED_INPUT_ITEM, ["A"]⟩,
      ⟨"add_channels", .DUPLICATED_INPUT_ITEM, ["A"]⟩] :
        List ValidationErr).countP
      (fun e => e.code == .DUPLICATED_INPUT_ITEM) = 2 :=
  ⟨by decide, by decide⟩

/-- C6 amended: for every request in which some channel identifier
appears in both the add list and the remove list and neither list
repeats an identifier internally, the result is exactly one
`DUPLICATED_INPUT_ITEM` error, filed under `input`, whose parameters
contain that identifier, and no storage write occurs (the outcome is an
error, so the reconcile stage is never reached). -/
theorem C6_cross_duplicate_single_error (env : Env) (product : ProductModel)
    (rows : List PCLRow) (input : PCLUpdateInput) (a : String)
    (ha : a ∈ input.add_channels.map AddChannelInput.channel_id)
    (hr : a ∈ input.remove_channels)
    (hnd_add : (input.add_channels.map AddChannelInput.channel_id).Nodup)
    (hnd_rem : input.remove_channels.Nodup) :
    ProductChannelListingUpdate.perform_mutation env product rows input =
      .error [⟨"input", .DUPLICATED_INPUT_ITEM,
        get_duplicates_ids (input.add_channels.map AddChannelInput.channel_id)
          input.remove_channels⟩] ∧
    a ∈ get_duplicates_ids (input.add_channels.map AddChannelInput.channel_id)
      input.remove_channels := by
  have hmem : a ∈ get_duplicates_ids
      (input.add_channels.map AddChannelInput.channel_id) input.remove_channels := by
    unfold get_duplicates_ids
    rw [List.mem_dedup, List.mem_filter]
    exact ⟨ha, by simpa [List.contains] using hr⟩
  have hd1 : get_duplicates_ids
      (input.add_channels.map AddChannelInput.channel_id)
      input.remove_channels ≠ [] := by
    intro h
    rw [h] at hmem
    exact absurd hmem (List.not_mem_nil a)
  have hse : structuralErrors input =
      [⟨"input", .DUPLICATED_INPUT_ITEM,
        get_duplicates_ids (input.add_channels.map AddChannelInput.channel_id)
          input.remove_channels⟩] := by
    unfold structuralErrors
    rw [if_neg hd1, if_pos (get_duplicated_values_eq_nil.mpr hnd_add),
      if_pos (get_duplicated_values_eq_nil.mpr hnd_rem),
      List.append_nil, List.append_nil]
  exact ⟨by rw [perform_structural (by rw [hse]; simp), hse], hmem⟩

/-- C5 counterexample: with a product lacking a category and a request
adding a published resolvable channel "A" together with an unresolvable
channel "B", the surfaced response consists of the `NOT_FOUND` failure
alone: the add-path resolution failure is raised by itself, and the
category failure for "A" that the claim says would be accumulated into
the same response is never produced. -/
theorem C5_counterexample :
    ProductChannelListingUpdate.perform_mutation envAonly ⟨none⟩ []
      ⟨[⟨"A", true, none⟩, ⟨"B", true, none⟩], []⟩ =
      .error [⟨"channel_id", .NOT_FOUND, ["B"]⟩] ∧
    envAonly "A" = some ⟨1, "USD"⟩ ∧
    (⟨none⟩ : ProductModel).category = none :=
  ⟨by decide, by decide, rfl⟩

/-- C5 amended: validation failures of the clean and validate stages
are accumulated into one field-keyed mapping and surfaced together in a
single error response, in both pipelines.  For the product manager: all
structural duplicate failures of one request surface together, and a
category failure is surfaced through the same accumulated mapping.  For
the variant manager: a duplicated channel identifier surfaces as that
single accumulated error (suppressing resolution), and the
channel-assignment and price failures accumulate and surface together,
each error collecting all its offending identifiers.  The one
exception, in either pipeline: an add-path channel-not-found failure is
raised on its own before the validate stage, and the response then
carries only that `NOT_FOUND` failure. -/
theorem C5_accumulation_with_notfound_exception :
    (∀ (env : Env) (product : ProductModel) (rows : List PCLRow)
      (input : PCLUpdateInput),
      structuralErrors input ≠ [] →
      ProductChannelListingUpdate.perform_mutation env product rows input =
        .error (structuralErrors input)) ∧
    (∀ (env : Env) (product : ProductModel) (rows : List PCLRow)
      (input : PCLUpdateInput),
      product.category = none →
      structuralErrors input = [] →
      (∀ e ∈ input.add_channels, (env e.channel_id).isSome = true) →
      publishedIds input ≠ [] →
      ProductChannelListingUpdate.perform_mutation env product rows input =
        .error [⟨"is_published", .PRODUCT_WITHOUT_CATEGORY,
          publishedIds input⟩]) ∧
    (∀ (env : Env) (product : ProductModel) (rows : List PCLRow)
      (input : PCLUpdateInput),
      structuralErrors input = [] →
      (input.add_channels.map AddChannelInput.channel_id).filter
        (fun i => (env i).isNone) ≠ [] →
      ProductChannelListingUpdate.perform_mutation env product rows input =
        .error [⟨"channel_id", .NOT_FOUND,
          (input.add_channels.map AddChannelInput.channel_id).filter
            (fun i => (env i).isNone)⟩]) ∧
    (∀ (env : Env) (product_rows : List PCLRow) (rows : List VCLRow)
      (input : List VariantAddInput),
      (input.map VariantAddInput.channel_id).Nodup →
      (∀ e ∈ input, (env e.channel_id).isSome = true) →
      (unassignedIds env product_rows input ≠ [] ∨
        invalidPriceIds env input ≠ []) →
      ProductVaraintChannelListingUpdate.perform_mutation env product_rows
          rows input =
        .error
          ((if unassignedIds env product_rows input = [] then []
            else [⟨"input", .PRODUCT_NOT_ASSIGNED_TO_CHANNEL,
              unassignedIds env product_rows input⟩]) ++
           (if invalidPriceIds env input = [] then []
            else [⟨"price", .INVALID, invalidPriceIds env input⟩]))) ∧
    (∀ (env : Env) (product_rows : List PCLRow) (rows : List VCLRow)
      (input : List VariantAddInput),
      get_duplicated_values (input.map VariantAddInput.channel_id) ≠ [] →
      ProductVaraintChannelListingUpdate.perform_mutation env product_rows
          rows input =
        .error [⟨"channelId", .DUPLICATED_INPUT_ITEM,
          get_duplicated_values (input.map VariantAddInput.channel_id)⟩]) ∧
    (∀ (env : Env) (product_rows : List PCLRow) (rows : List VCLRow)
      (input : List VariantAddInput),
      get_duplicated_values (input.map VariantAddInput.channel_id) = [] →
      (input.map VariantAddInput.channel_id).filter
        (fun i => (env i).isNone) ≠ [] →
      ProductVaraintChannelListingUpdate.perform_mutation env product_rows
          rows input =
        .error [⟨"channel_id", .NOT_FOUND,
          (input.map VariantAddInput.channel_id).filter
            (fun i => (env i).isNone)⟩]) := by
  refine ⟨?_, ?_, ?_, ?_, ?_, ?_⟩
  · intro env product rows input hne
    exact perform_structural hne
  · intro env product rows input hcat hs hres hpub
    exact perform_category_only_error hcat hs hres hpub
  · intro env product rows input hs hnf
    unfold ProductChannelListingUpdate.perform_mutation
    rw [clean_channels_not_found hs hnf]
  · intro env product_rows rows input hnd hres hbad
    exact vperform_validation_errors hnd hres hbad
  · intro env product_rows rows input hd
    exact vperform_duplicates hd
  · intro env product_rows rows input hd hnf
    unfold ProductVaraintChannelListingUpdate.perform_mutation
    rw [vclean_channels_not_found hd hnf]

/-- C8: removal is idempotent and never an error.  For a request with
no add entries and a duplicate-free remove list: the mutation succeeds
(unresolvable remove identifiers are silently dropped, never surfaced),
deleting rows that do not exist leaves the table unchanged, and
repeating the same remove request produces the same final table. -/
theorem C8_remove_is_idempotent_noop (env : Env) (product : ProductModel)
    (rows : List PCLRow) (removeIds : List String)
    (hnd : removeIds.Nodup) :
    (ProductChannelListingUpdate.perform_mutation env product rows
        ⟨[], removeIds⟩ =
      .ok (ProductChannelListingUpdate.remove_channels rows
        (resolve_global_ids_to_primary_keys env removeIds))) ∧
    (rows.all (fun r => !((resolve_global_ids_to_primary_keys env
        removeIds).contains r.channel_id)) = true →
      ProductChannelListingUpdate.remove_channels rows
        (resolve_global_ids_to_primary_keys env removeIds) = rows) ∧
    (ProductChannelListingUpdate.perform_mutation env product
        (ProductChannelListingUpdate.remove_channels rows
          (resolve_global_ids_to_primary_keys env removeIds))
        ⟨[], removeIds⟩ =
      .ok (ProductChannelListingUpdate.remove_channels rows
        (resolve_global_ids_to_primary_keys env removeIds))) := by
  have key : ∀ rows' : List PCLRow,
      ProductChannelListingUpdate.perform_mutation env product rows'
          ⟨[], removeIds⟩ =
        .ok (ProductChannelListingUpdate.remove_channels rows'
          (resolve_global_ids_to_primary_keys env removeIds)) := by
    intro rows'
    unfold ProductChannelListingUpdate.perform_mutation
    rw [@clean_channels_eval env ⟨[], removeIds⟩ (by simp [get_duplicates_ids])
      (by simp [get_duplicated_values]) (get_duplicated_values_eq_nil.mpr hnd)
      (by simp)]
    simp [ProductChannelListingUpdate.validate_product_without_category,
      ProductChannelListingUpdate.save,
      ProductChannelListingUpdate.add_channels, resolvedAdds]
  have idem : ProductChannelListingUpdate.remove_channels
      (ProductChannelListingUpdate.remove_channels rows
        (resolve_global_ids_to_primary_keys env removeIds))
      (resolve_global_ids_to_primary_keys env removeIds) =
      ProductChannelListingUpdate.remove_channels rows
        (resolve_global_ids_to_primary_keys env removeIds) := by
    unfold ProductChannelListingUpdate.remove_channels
    rw [List.filter_eq_self]
    intro r hr
    exact (List.mem_filter.mp hr).2
  refine ⟨key rows, ?_, (key _).trans (by rw [idem])⟩
  intro hall
  unfold ProductChannelListingUpdate.remove_channels
  rw [List.filter_eq_self]
  intro r hr
  exact List.all_eq_true.mp hall r hr

/-- C4: for a product with no category, a request that passes the
structural checks and whose add identifiers all resolve is rejected
whenever some add entry has a true publish flag, with a single
`PRODUCT_WITHOUT_CATEGORY` error listing every such channel identifier;
the outcome is an error, so no storage write occurs. -/
theorem C4_publish_without_category_rejected (env : Env)
    (product : ProductModel) (rows : List PCLRow) (input : PCLUpdateInput)
    (hcat : product.category = none)
    (h1 : get_duplicates_ids (input.add_channels.map AddChannelInput.channel_id)
      input.remove_channels = [])
    (h2 : get_duplicated_values
      (input.add_channels.map AddChannelInput.channel_id) = [])
    (h3 : get_duplicated_values input.remove_channels = [])
    (hres : ∀ e ∈ input.add_channels, (env e.channel_id).isSome = true)
    (hpub : publishedIds input ≠ []) :
    ProductChannelListingUpdate.perform_mutation env product rows input =
      .error [⟨"is_published", .PRODUCT_WITHOUT_CATEGORY, publishedIds input⟩] := by
  unfold ProductChannelListingUpdate.perform_mutation
  rw [clean_channels_eval h1 h2 h3 hres]
  simp only [ProductChannelListingUpdate.validate_product_without_category,
    List.nil_append, hcat, if_true]
  have hoff : ((resolvedAdds env input.add_channels).filter
      (fun e => e.1.is_published)).map (fun e => e.1.channel_id) =
      publishedIds input := resolvedAdds_published hres
  rw [hoff, if_neg hpub, if_neg (by simp)]

/-- C3: in the variant manager, entries whose channel the parent
product is not listed on produce one `PRODUCT_NOT_ASSIGNED_TO_CHANNEL`
error collecting all such identifiers, entries with a negative price
produce one `INVALID` error collecting all such identifiers, the same
channel may appear in both errors of one response, and whenever either
error exists the outcome is an error response, so no write occurs for
any entry of the request. -/
theorem C3_variant_validation_errors (env : Env) (product_rows : List PCLRow)
    (rows : List VCLRow) (input : List VariantAddInput)
    (hnd : (input.map VariantAddInput.channel_id).Nodup)
    (hres : ∀ e ∈ input, (env e.channel_id).isSome = true)
    (hbad : unassignedIds env product_rows input ≠ [] ∨
      invalidPriceIds env input ≠ []) :
    ProductVaraintChannelListingUpdate.perform_mutation env product_rows rows
        input =
      .error
        ((if unassignedIds env product_rows input = [] then []
          else [⟨"input", .PRODUCT_NOT_ASSIGNED_TO_CHANNEL,
            unassignedIds env product_rows input⟩]) ++
         (if invalidPriceIds env input = [] then []
          else [⟨"price", .INVALID, invalidPriceIds env input⟩])) := by
  unfold unassignedIds invalidPriceIds at hbad ⊢
  unfold ProductVaraintChannelListingUpdate.perform_mutation
  rw [vclean_channels_eval hnd hres]
  simp only [ProductVaraintChannelListingUpdate.validate_product_assigned_to_channel,
    ProductVaraintChannelListingUpdate.clean_prices, List.nil_append]
  by_cases hAf : (resolvedEntries env input).filter
      (fun e => !((product_rows.map PCLRow.channel_id).contains e.2.pk)) = []
  · have hAm : ((resolvedEntries env input).filter
        (fun e => !((product_rows.map PCLRow.channel_id).contains e.2.pk))).map
        (fun e => e.1.channel_id) = [] := by rw [hAf]; rfl
    rw [if_pos hAf, if_pos hAm]
    by_cases hP : ((resolvedEntries env input).filter
        (fun e => match e.1.price with
          | some p => decide (p < 0)
          | none => false)).map (fun e => e.1.channel_id) = []
    · rcases hbad with hb | hb
      · exact absurd hAm hb
      · exact absurd hP hb
    · rw [if_neg hP]
      simp
  · have hAm : ((resolvedEntries env input).filter
        (fun e => !((product_rows.map PCLRow.channel_id).contains e.2.pk))).map
        (fun e => e.1.channel_id) ≠ [] := by
      rw [Ne, List.map_eq_nil_iff]
      exact hAf
    rw [if_neg hAf, if_neg hAm]
    by_cases hP : ((resolvedEntries env input).filter
        (fun e => match e.1.price with
          | some p => decide (p < 0)
          | none => false)).map (fun e => e.1.channel_id) = []
    · rw [if_pos hP]
      simp
    · rw [if_neg hP]
      simp

/-- C1: for every product-listing request the mutation accepts (no
validation error, so an updated table is returned) under an injective
resolver, the resulting listing table per channel key equals the
previous table minus the removed channels, overwritten with the added
channels carrying their submitted `is_published` and `publication_date`
(a date not supplied is stored as null); an add for an already-listed
channel overwrites that row rather than creating a second one. -/
theorem C1_reconcile_final_table (env : Env) (product : ProductModel)
    (rows final : List PCLRow) (input : PCLUpdateInput) (pk : Nat)
    (hinj : pkInjOn env (requestIds input))
    (hok : ProductChannelListingUpdate.perform_mutation env product rows input =
      .ok final) :
    lookupRow final pk = expectedAfterUpdate env input rows pk := by
  obtain ⟨cleaned, hclean, hfinal⟩ := perform_ok_inv hok
  obtain ⟨h1, h2, h3, hres, hcleaned⟩ := clean_channels_ok_nil_inv hclean
  subst hcleaned
  subst hfinal
  unfold ProductChannelListingUpdate.save
  rw [lookupRow_remove, lookupRow_add_channels _ _ _
    (resolvedAdds_pks_nodup (get_duplicated_values_eq_nil.mp h2)
      (pkInjOn_mono (fun x hx => List.mem_append_left _ hx) hinj))]
  unfold expectedAfterUpdate
  have hfind := @resolvedAdds_find? env input.add_channels pk hres
  cases haf : input.add_channels.find?
      (fun e => pkMatches env e.channel_id pk) with
  | some e =>
    rw [haf] at hfind
    cases hrf : (resolvedAdds env input.add_channels).find?
        (fun x => x.2.pk == pk) with
    | none => rw [hrf] at hfind; simp at hfind
    | some x =>
      rw [hrf] at hfind
      simp only [Option.map_some', Option.some.injEq] at hfind
      have hxmem := List.mem_of_find?_eq_some hrf
      have hxpk : x.2.pk = pk := by simpa using List.find?_some hrf
      have hnc := resolved_add_not_removed h1 hinj hxmem
      rw [hxpk] at hnc
      have hnm : pk ∉ resolve_global_ids_to_primary_keys env
          input.remove_channels := by simpa using hnc
      simp [hnm, hfind]
  | none =>
    rw [haf] at hfind
    cases hrf : (resolvedAdds env input.add_channels).find?
        (fun x => x.2.pk == pk) with
    | some x => rw [hrf] at hfind; simp at hfind
    | none => simp

/-- C9: for every product-listing request that reaches the reconcile
stage (the mutation succeeds) under an injective resolver, the set of
upserted channel keys is disjoint from the set of deleted keys, the
final table is the one written by `save`, and executing the deletes
before the upserts produces the same table: the add-before-remove
execution order does not matter. -/
theorem C9_add_remove_disjoint_order_independent (env : Env)
    (product : ProductModel) (rows final : List PCLRow) (input : PCLUpdateInput)
    (hinj : pkInjOn env (requestIds input))
    (hok : ProductChannelListingUpdate.perform_mutation env product rows input =
      .ok final) :
    ((resolvedAdds env input.add_channels).all
      (fun ec => !((resolve_global_ids_to_primary_keys env
        input.remove_channels).contains ec.2.pk)) = true) ∧
    final = ProductChannelListingUpdate.save rows
      ⟨resolvedAdds env input.add_channels,
        resolve_global_ids_to_primary_keys env input.remove_channels⟩ ∧
    ProductChannelListingUpdate.save rows
        ⟨resolvedAdds env input.add_channels,
          resolve_global_ids_to_primary_keys env input.remove_channels⟩ =
      save_remove_first rows
        ⟨resolvedAdds env input.add_channels,
          resolve_global_ids_to_primary_keys env input.remove_channels⟩ := by
  obtain ⟨cleaned, hclean, hfinal⟩ := perform_ok_inv hok
  obtain ⟨h1, h2, h3, hres, hcleaned⟩ := clean_channels_ok_nil_inv hclean
  subst hcleaned
  have hdisj : ∀ ec ∈ resolvedAdds env input.add_channels,
      (resolve_global_ids_to_primary_keys env
        input.remove_channels).contains ec.2.pk = false :=
    fun ec hmem => resolved_add_not_removed h1 hinj hmem
  refine ⟨List.all_eq_true.mpr (fun ec hmem => by rw [hdisj ec hmem]; rfl),
    hfinal, ?_⟩
  unfold ProductChannelListingUpdate.save save_remove_first
  exact save_comm hdisj

/-- C2: for every variant-listing request the mutation accepts under an
injective resolver, each entry is upserted keyed by its channel with
`price_amount` equal to the submitted price and `currency` equal to the
channel's currency code; no currency is taken from the caller (the
input carries no currency field, and the stored currency is computed
from the channel alone). -/
theorem C2_variant_upsert_price_and_currency (env : Env)
    (product_rows : List PCLRow) (rows final : List VCLRow)
    (input : List VariantAddInput) (e : VariantAddInput) (c : ChannelModel)
    (hinj : pkInjOn env (input.map VariantAddInput.channel_id))
    (hok : ProductVaraintChannelListingUpdate.perform_mutation env product_rows
      rows input = .ok final)
    (hmem : e ∈ input) (hc : env e.channel_id = some c) :
    lookupVRow final c.pk = some ⟨c.pk, e.price, c.currency_code⟩ := by
  obtain ⟨cleaned, hclean, hfinal⟩ := vperform_ok_inv hok
  obtain ⟨hnd, hres, hcleaned⟩ := vclean_channels_ok_nil_inv hclean
  subst hcleaned
  subst hfinal
  rw [lookupVRow_save _ _ _ (resolvedEntries_pks_nodup hnd hinj)]
  have hmem' : (e, c) ∈ resolvedEntries env input :=
    List.mem_filterMap.mpr ⟨e, hmem, by rw [hc]; rfl⟩
  have hfind := find?_resolvedEntry_eq hmem'
    (resolvedEntries_pks_nodup hnd hinj)
  have hfind' : (resolvedEntries env input).find?
      (fun x => x.2.pk == c.pk) = some (e, c) := hfind
  rw [hfind']

/-- C10: the negative-price check fires only for entries whose price is
present and strictly negative.  An entry with an absent price is never
named in an `INVALID` error of the price check, and when the request
succeeds the row stored for that entry's channel has a null
`price_amount` (with the channel's currency). -/
theorem C10_absent_price_never_invalid (env : Env)
    (product_rows : List PCLRow) (rows final : List VCLRow)
    (input : List VariantAddInput) (e : VariantAddInput) (c : ChannelModel)
    (hnd : (input.map VariantAddInput.channel_id).Nodup)
    (hmem : e ∈ input) (hprice : e.price = none)
    (hc : env e.channel_id = some c) :
    (((ProductVaraintChannelListingUpdate.clean_prices
        (resolvedEntries env input) []).1).all
      (fun err => !(err.channels.contains e.channel_id)) = true) ∧
    (pkInjOn env (input.map VariantAddInput.channel_id) →
      ProductVaraintChannelListingUpdate.perform_mutation env product_rows rows
        input = .ok final →
      lookupVRow final c.pk = some ⟨c.pk, none, c.currency_code⟩) := by
  constructor
  · unfold ProductVaraintChannelListingUpdate.clean_prices
    simp only [List.nil_append]
    by_cases hP : ((resolvedEntries env input).filter
        (fun x => match x.1.price with
          | some p => decide (p < 0)
          | none => false)).map (fun x => x.1.channel_id) = []
    · rw [if_pos hP]
      rfl
    · rw [if_neg hP]
      have hni : e.channel_id ∉ ((resolvedEntries env input).filter
          (fun x => match x.1.price with
            | some p => decide (p < 0)
            | none => false)).map (fun x => x.1.channel_id) := by
        intro hin
        obtain ⟨x, hxf, hxid⟩ := List.mem_map.mp hin
        obtain ⟨hxr, hxp⟩ := List.mem_filter.mp hxf
        obtain ⟨hxi, -⟩ := mem_resolvedEntries hxr
        have hxe : x.1 = e := List.inj_on_of_nodup_map hnd hxi hmem hxid
        rw [hxe, hprice] at hxp
        simp at hxp
      simp [hni]
  · intro hinj hok
    obtain ⟨cleaned, hclean, hfinal⟩ := vperform_ok_inv hok
    obtain ⟨hnd', hres, hcleaned⟩ := vclean_channels_ok_nil_inv hclean
    subst hcleaned
    subst hfinal
    rw [lookupVRow_save _ _ _ (resolvedEntries_pks_nodup hnd' hinj)]
    have hmem' : (e, c) ∈ resolvedEntries env input :=
      List.mem_filterMap.mpr ⟨e, hmem, by rw [hc]; rfl⟩
    have hfind : (resolvedEntries env input).find?
        (fun x => x.2.pk == c.pk) = some (e, c) :=
      find?_resolvedEntry_eq hmem' (resolvedEntries_pks_nodup hnd' hinj)
    rw [hfind]
    simp [hprice]

/-- Witness for C1: overwrite of an existing listing, a removal, and an
untouched channel, checked at keys 1, 2 and 3. -/
theorem C1_reconcile_final_table_witness :
    lookupRow [⟨1, true, some 11⟩, ⟨3, true, some 5⟩] 1 =
      expectedAfterUpdate envAB ⟨[⟨"A", true, some 11⟩], ["B"]⟩
        [⟨1, false, none⟩, ⟨2, true, none⟩, ⟨3, true, some 5⟩] 1 ∧
    lookupRow [⟨1, true, some 11⟩, ⟨3, true, some 5⟩] 2 =
      expectedAfterUpdate envAB ⟨[⟨"A", true, some 11⟩], ["B"]⟩
        [⟨1, false, none⟩, ⟨2, true, none⟩, ⟨3, true, some 5⟩] 2 ∧
    lookupRow [⟨1, true, some 11⟩, ⟨3, true, some 5⟩] 3 =
      expectedAfterUpdate envAB ⟨[⟨"A", true, some 11⟩], ["B"]⟩
        [⟨1, false, none⟩, ⟨2, true, none⟩, ⟨3, true, some 5⟩] 3 :=
  ⟨C1_reconcile_final_table envAB ⟨some 7⟩
      [⟨1, false, none⟩, ⟨2, true, none⟩, ⟨3, true, some 5⟩]
      [⟨1, true, some 11⟩, ⟨3, true, some 5⟩]
      ⟨[⟨"A", true, some 11⟩], ["B"]⟩ 1 (by decide) (by decide),
    C1_reconcile_final_table envAB ⟨some 7⟩
      [⟨1, false, none⟩, ⟨2, true, none⟩, ⟨3, true, some 5⟩]
      [⟨1, true, some 11⟩, ⟨3, true, some 5⟩]
      ⟨[⟨"A", true, some 11⟩], ["B"]⟩ 2 (by decide) (by decide),
    C1_reconcile_final_table envAB ⟨some 7⟩
      [⟨1, false, none⟩, ⟨2, true, none⟩, ⟨3, true, some 5⟩]
      [⟨1, true, some 11⟩, ⟨3, true, some 5⟩]
      ⟨[⟨"A", true, some 11⟩], ["B"]⟩ 3 (by decide) (by decide)⟩

/-- Witness for C2: channel "A" (USD) gets the submitted price 10 and
the channel currency, overwriting the previously stored row. -/
theorem C2_variant_upsert_price_and_currency_witness :
    lookupVRow [⟨1, some 10, "USD"⟩, ⟨2, none, "EUR"⟩] 1 =
      some ⟨1, some 10, "USD"⟩ :=
  C2_variant_upsert_price_and_currency envAB
    [⟨1, true, none⟩, ⟨2, false, none⟩] [⟨1, some 3, "OLD"⟩]
    [⟨1, some 10, "USD"⟩, ⟨2, none, "EUR"⟩]
    [⟨"A", some 10⟩, ⟨"B", none⟩] ⟨"A", some 10⟩ ⟨1, "USD"⟩
    (by decide) (by decide) (by decide) (by decide)

/-- Witness for C3: channel "B" is simultaneously unassigned and
negatively priced; one error of each kind is surfaced, both naming "B",
and the outcome is an error, so nothing is written. -/
theorem C3_variant_validation_errors_witness :
    ProductVaraintChannelListingUpdate.perform_mutation envAB
        [⟨1, true, none⟩] [] [⟨"A", some 10⟩, ⟨"B", some (-1)⟩] =
      .error [⟨"input", .PRODUCT_NOT_ASSIGNED_TO_CHANNEL, ["B"]⟩,
        ⟨"price", .INVALID, ["B"]⟩] :=
  (C3_variant_validation_errors envAB [⟨1, true, none⟩] []
    [⟨"A", some 10⟩, ⟨"B", some (-1)⟩]
    (by decide) (by decide) (by decide)).trans (by decide)

/-- Witness for C4: a category-less product with published add entry
"A" and unpublished add entry "B" is rejected with one
`PRODUCT_WITHOUT_CATEGORY` error naming exactly "A". -/
theorem C4_publish_without_category_rejected_witness :
    ProductChannelListingUpdate.perform_mutation envAB ⟨none⟩ []
        ⟨[⟨"A", true, none⟩, ⟨"B", false, none⟩], []⟩ =
      .error [⟨"is_published", .PRODUCT_WITHOUT_CATEGORY, ["A"]⟩] :=
  (C4_publish_without_category_rejected envAB ⟨none⟩ []
    ⟨[⟨"A", true, none⟩, ⟨"B", false, none⟩], []⟩
    rfl (by decide) (by decide) (by decide) (by decide) (by decide)).trans
    (by decide)

/-- Witness for C5, one instance per conjunct: both structural
duplicate errors of a product request surface together; a category
failure surfaces through the accumulated mapping; an unresolvable add
identifier is raised as the sole `NOT_FOUND` failure of its product
request; a variant request's assignment and price failures surface
together in one response; a duplicated variant channel identifier
surfaces as the single accumulated error; and an unresolvable variant
identifier is raised as the sole `NOT_FOUND` failure of its request. -/
theorem C5_accumulation_with_notfound_exception_witness :
    ProductChannelListingUpdate.perform_mutation envAB ⟨some 7⟩ []
        ⟨[⟨"A", true, none⟩, ⟨"A", false, none⟩], ["A"]⟩ =
      .error [⟨"input", .DUPLICATED_INPUT_ITEM, ["A"]⟩,
        ⟨"add_channels", .DUPLICATED_INPUT_ITEM, ["A"]⟩] ∧
    ProductChannelListingUpdate.perform_mutation envAB ⟨none⟩ []
        ⟨[⟨"A", true, none⟩], []⟩ =
      .error [⟨"is_published", .PRODUCT_WITHOUT_CATEGORY, ["A"]⟩] ∧
    ProductChannelListingUpdate.perform_mutation envAonly ⟨some 7⟩ []
        ⟨[⟨"A", true, none⟩, ⟨"B", true, none⟩], []⟩ =
      .error [⟨"channel_id", .NOT_FOUND, ["B"]⟩] ∧
    ProductVaraintChannelListingUpdate.perform_mutation envAB
        [⟨1, true, none⟩] [] [⟨"A", some 10⟩, ⟨"B", some (-1)⟩] =
      .error [⟨"input", .PRODUCT_NOT_ASSIGNED_TO_CHANNEL, ["B"]⟩,
        ⟨"price", .INVALID, ["B"]⟩] ∧
    ProductVaraintChannelListingUpdate.perform_mutation envAB
        [⟨1, true, none⟩] [] [⟨"A", some 10⟩, ⟨"A", some 20⟩] =
      .error [⟨"channelId", .DUPLICATED_INPUT_ITEM, ["A"]⟩] ∧
    ProductVaraintChannelListingUpdate.perform_mutation envAonly
        [⟨1, true, none⟩] [] [⟨"A", some 10⟩, ⟨"B", some 5⟩] =
      .error [⟨"channel_id", .NOT_FOUND, ["B"]⟩] :=
  ⟨(C5_accumulation_with_notfound_exception.1 envAB ⟨some 7⟩ []
      ⟨[⟨"A", true, none⟩, ⟨"A", false, none⟩], ["A"]⟩ (by decide)).trans
      (by decide),
    (C5_accumulation_with_notfound_exception.2.1 envAB ⟨none⟩ []
      ⟨[⟨"A", true, none⟩], []⟩ rfl (by decide) (by decide)
      (by decide)).trans (by decide),
    (C5_accumulation_with_notfound_exception.2.2.1 envAonly ⟨some 7⟩ []
      ⟨[⟨"A", true, none⟩, ⟨"B", true, none⟩], []⟩ (by decide)
      (by decide)).trans (by decide),
    (C5_accumulation_with_notfound_exception.2.2.2.1 envAB
      [⟨1, true, none⟩] [] [⟨"A", some 10⟩, ⟨"B", some (-1)⟩] (by decide)
      (by decide) (by decide)).trans (by decide),
    (C5_accumulation_with_notfound_exception.2.2.2.2.1 envAB
      [⟨1, true, none⟩] [] [⟨"A", some 10⟩, ⟨"A", some 20⟩]
      (by decide)).trans (by decide),
    (C5_accumulation_with_notfound_exception.2.2.2.2.2 envAonly
      [⟨1, true, none⟩] [] [⟨"A", some 10⟩, ⟨"B", some 5⟩] (by decide)
      (by decide)).trans (by decide)⟩

/-- Witness for C6: channel "A" in both lists, no within-list repeats:
exactly one `DUPLICATED_INPUT_ITEM` error, naming "A". -/
theorem C6_cross_duplicate_single_error_witness :
    ProductChannelListingUpdate.perform_mutation envAB ⟨some 7⟩ []
        ⟨[⟨"A", true, none⟩], ["A"]⟩ =
      .error [⟨"input", .DUPLICATED_INPUT_ITEM, ["A"]⟩] ∧
    ("A" : String) ∈ (["A"] : List String) := by
  have h := C6_cross_duplicate_single_error envAB ⟨some 7⟩ []
    ⟨[⟨"A", true, none⟩], ["A"]⟩ "A" (by decide) (by decide) (by decide)
    (by decide)
  exact ⟨h.1.trans (by decide), by decide⟩

/-- Witness for C7: unresolvable identifier "Z" added twice with
opposite flags on a category-less product: one duplicate error only. -/
theorem C7_duplicate_add_skips_category_check_witness :
    ProductChannelListingUpdate.perform_mutation envAB ⟨none⟩ []
        ⟨[⟨"Z", true, none⟩, ⟨"Z", false, none⟩], []⟩ =
      .error [⟨"add_channels", .DUPLICATED_INPUT_ITEM, ["Z"]⟩] :=
  C7_duplicate_add_skips_category_check envAB ⟨none⟩ [] "Z" true false
    none none rfl (by decide)

/-- Witness for C8: removing "A" (row absent) and unresolvable "X" from
a table holding only channel 9 succeeds, changes nothing, and repeats to
the same state. -/
theorem C8_remove_is_idempotent_noop_witness :
    (ProductChannelListingUpdate.perform_mutation envAB ⟨some 7⟩
        [⟨9, true, none⟩] ⟨[], ["A", "X"]⟩ =
      .ok (ProductChannelListingUpdate.remove_channels [⟨9, true, none⟩]
        (resolve_global_ids_to_primary_keys envAB ["A", "X"]))) ∧
    (ProductChannelListingUpdate.remove_channels [⟨9, true, none⟩]
        (resolve_global_ids_to_primary_keys envAB ["A", "X"]) =
      [⟨9, true, none⟩]) ∧
    (ProductChannelListingUpdate.perform_mutation envAB ⟨some 7⟩
        (ProductChannelListingUpdate.remove_channels [⟨9, true, none⟩]
          (resolve_global_ids_to_primary_keys envAB ["A", "X"]))
        ⟨[], ["A", "X"]⟩ =
      .ok (ProductChannelListingUpdate.remove_channels [⟨9, true, none⟩]
        (resolve_global_ids_to_primary_keys envAB ["A", "X"]))) := by
  have h := C8_remove_is_idempotent_noop envAB ⟨some 7⟩ [⟨9, true, none⟩]
    ["A", "X"] (by decide)
  exact ⟨h.1, h.2.1 (by decide), h.2.2⟩

/-- Witness for C9: add "A" (key 1), remove "B" (key 2): the written
and deleted key sets are disjoint and the two execution orders agree. -/
theorem C9_add_remove_disjoint_order_independent_witness :
    ((resolvedAdds envAB [⟨"A", true, none⟩]).all
      (fun ec => !((resolve_global_ids_to_primary_keys envAB
        ["B"]).contains ec.2.pk)) = true) ∧
    ([⟨1, true, none⟩] : List PCLRow) = ProductChannelListingUpdate.save
      [⟨2, true, none⟩]
      ⟨resolvedAdds envAB [⟨"A", true, none⟩],
        resolve_global_ids_to_primary_keys envAB ["B"]⟩ ∧
    ProductChannelListingUpdate.save [⟨2, true, none⟩]
        ⟨resolvedAdds envAB [⟨"A", true, none⟩],
          resolve_global_ids_to_primary_keys envAB ["B"]⟩ =
      save_remove_first [⟨2, true, none⟩]
        ⟨resolvedAdds envAB [⟨"A", true, none⟩],
          resolve_global_ids_to_primary_keys envAB ["B"]⟩ := by
  have h := C9_add_remove_disjoint_order_independent envAB ⟨some 7⟩
    [⟨2, true, none⟩] [⟨1, true, none⟩] ⟨[⟨"A", true, none⟩], ["B"]⟩
    (by decide) (by decide)
  exact ⟨h.1, h.2.1, h.2.2⟩

/-- Witness for C10: entry "B" with no price is flagged by no error of
the price check, and its stored row carries a null price and the
channel's currency. -/
theorem C10_absent_price_never_invalid_witness :
    (((ProductVaraintChannelListingUpdate.clean_prices
        (resolvedEntries envAB [⟨"B", none⟩]) []).1).all
      (fun err => !(err.channels.contains "B")) = true) ∧
    lookupVRow [⟨2, none, "EUR"⟩] 2 = some ⟨2, none, "EUR"⟩ := by
  have h := C10_absent_price_never_invalid envAB [⟨2, false, none⟩] []
    [⟨2, none, "EUR"⟩] [⟨"B", none⟩] ⟨"B", none⟩ ⟨2, "EUR"⟩
    (by decide) (by decide) rfl (by decide)
  exact ⟨h.1, h.2 (by decide) (by decide)⟩

end Channels
